import Mathlib

/-!
# frp: UDP codec, server proxies and the client visitor manager

A shallow embedding of

* `models/proto/udp/udp.go`   (`NewUdpPacket`, `GetContent`, `ForwardUserConn`),
* `server/proxy/udp.go`       (`UdpProxy.Run` with its reader, sender and supervisor,
                               `UdpProxy.Close`),
* `server/proxy/https.go`     (`HttpsProxy.Run`),
* `server/proxy/xtcp.go`      (`XtcpProxy.Run`, `XtcpProxy.Close`),
* `client/visitor_manager.go` (`VisitorManager.Reload`, `startVisitor`),
* `client/health/health.go`   (`NewHealthCheckMonitor`, `checkWorker`).

Definitions come first, theorems afterwards.
-/

namespace Frp

/-! ## encoding/base64 (`base64.StdEncoding`) -/

/-- A Go `byte`. -/
abbrev Byte := Fin 256

/-- The alphabet of `base64.StdEncoding` (`encodeStd`). -/
def encodeStd : List Char :=
  "ABCDEFGHIJKLMNOPQRSTUVWXYZabcdefghijklmnopqrstuvwxyz0123456789+/".toList

/-- The padding character of `base64.StdEncoding` (`StdPadding`). -/
def padChar : Char := '='

/-- The table lookup `enc.encode[i]`. -/
def encChar (i : Nat) : Char := encodeStd.getD i 'A'

/-- The table lookup `enc.decodeMap[c]`: the index of `c` in the alphabet, `none` standing
for the entry `0xFF` of a character outside the alphabet. -/
def decChar (c : Char) : Option Nat :=
  let i := encodeStd.indexOf c
  if i < 64 then some i else none

/-- The low byte of an unsigned value, `byte(v)`. -/
def toByte (v : Nat) : Byte := ⟨v % 256, Nat.mod_lt _ (by decide)⟩

/-- `Encoding.Encode` of `base64.StdEncoding`: every three source bytes give the 24-bit
value `val`, written as four 6-bit table lookups; a remainder of one or two bytes is padded
with `=`. -/
def b64Encode : List Byte → List Char
  | [] => []
  | [a] =>
    let val := a.val * 65536
    [encChar (val / 262144 % 64), encChar (val / 4096 % 64), padChar, padChar]
  | [a, b] =>
    let val := a.val * 65536 + b.val * 256
    [encChar (val / 262144 % 64), encChar (val / 4096 % 64), encChar (val / 64 % 64), padChar]
  | a :: b :: c :: rest =>
    let val := a.val * 65536 + b.val * 256 + c.val
    encChar (val / 262144 % 64) :: encChar (val / 4096 % 64) :: encChar (val / 64 % 64)
      :: encChar (val % 64) :: b64Encode rest

/-- The quantum loop of `Encoding.Decode` on input without line breaks: four characters give
three bytes; padding is accepted only in the last quantum, as `xx==` (one byte) or `xxx=`
(two bytes); anything else is a `CorruptInputError` (`none`). -/
def decodeQuanta : List Char → Option (List Byte)
  | [] => some []
  | c0 :: c1 :: c2 :: c3 :: rest =>
    match decChar c0, decChar c1 with
    | some i0, some i1 =>
      match decChar c2 with
      | some i2 =>
        match decChar c3 with
        | some i3 =>
          let val := i0 * 262144 + i1 * 4096 + i2 * 64 + i3
          match decodeQuanta rest with
          | some out => some (toByte (val / 65536) :: toByte (val / 256) :: toByte val :: out)
          | none => none
        | none =>
          let val := i0 * 262144 + i1 * 4096 + i2 * 64
          if c3 = padChar ∧ rest = [] then some [toByte (val / 65536), toByte (val / 256)]
          else none
      | none =>
        let val := i0 * 262144 + i1 * 4096
        if c2 = padChar ∧ c3 = padChar ∧ rest = [] then some [toByte (val / 65536)] else none
    | _, _ => none
  | _ => none

/-- `Encoding.DecodeString` of `base64.StdEncoding`: `\r` and `\n` are ignored wherever they
stand, the rest is decoded quantum by quantum. -/
def b64Decode (s : List Char) : Option (List Byte) :=
  decodeQuanta (s.filter (fun c => c != '\r' && c != '\n'))

/-- `base64.StdEncoding.EncodeToString`. -/
def EncodeToString (buf : List Byte) : String := String.mk (b64Encode buf)

/-- `base64.StdEncoding.DecodeString`; `Except.ok` is a nil error. -/
def DecodeString (s : String) : Except String (List Byte) :=
  match b64Decode s.data with
  | some out => .ok out
  | none => .error "illegal base64 data"

/-! ## models/proto/udp: the UDP codec -/

/-- A `net.UDPAddr`. -/
structure UDPAddr where
  IP : List Byte
  Port : Int
  Zone : String
  deriving DecidableEq, Repr

/-- The message `msg.UdpPacket`; a nil address pointer is `none`. -/
structure UdpPacket where
  Content : String
  LocalAddr : Option UDPAddr
  RemoteAddr : Option UDPAddr
  deriving DecidableEq, Repr

/-- `NewUdpPacket` of `udp.go`. -/
def NewUdpPacket (buf : List Byte) (laddr raddr : Option UDPAddr) : UdpPacket :=
  { Content := EncodeToString buf, LocalAddr := laddr, RemoteAddr := raddr }

/-- `GetContent` of `udp.go`. -/
def GetContent (m : UdpPacket) : Except String (List Byte) :=
  DecodeString m.Content

/-! ## Channels -/

/-- A Go channel `chan α`: its capacity, the values buffered in it, oldest first, and
whether `close` has been called on it. -/
structure Chan (α : Type) where
  cap : Nat
  buf : List α
  closed : Bool
  deriving DecidableEq, Repr

/-- The expression `make(chan α, cap)`. -/
def makeChan (α : Type) (cap : Nat) : Chan α := { cap := cap, buf := [], closed := false }

/-- What a send statement does on a channel nobody is receiving from at that moment. -/
inductive SendOutcome (α : Type) where
  /-- The value was appended to the buffer; the sender goes on. -/
  | sent (ch : Chan α)
  /-- `select` took its `default` branch: nothing was sent and the sender goes on. -/
  | dropped
  /-- The sender is parked in the send statement until a receiver makes room. -/
  | blocked
  /-- The channel is closed: "send on closed channel". -/
  | panic
  deriving DecidableEq, Repr

/-- The statement `select { case ch <- x: default: }`. -/
def Chan.trySend {α : Type} (ch : Chan α) (x : α) : SendOutcome α :=
  if ch.closed then .panic
  else if ch.buf.length < ch.cap then .sent { ch with buf := ch.buf ++ [x] }
  else .dropped

/-- The statement `ch <- x`. -/
def Chan.send {α : Type} (ch : Chan α) (x : α) : SendOutcome α :=
  if ch.closed then .panic
  else if ch.buf.length < ch.cap then .sent { ch with buf := ch.buf ++ [x] }
  else .blocked

/-- The statement `close(ch)`; closing a nil or an already closed channel panics. -/
def closeChan {α : Type} : Option (Chan α) → Except String (Chan α)
  | none => .error "close of nil channel"
  | some ch => if ch.closed then .error "close of closed channel"
               else .ok { ch with closed := true }

/-- Where a goroutine (or a call) stands. -/
inductive GoStatus where
  /-- It waits for its next input. -/
  | running
  /-- It has returned. -/
  | returned
  /-- It is parked in a blocking channel send. -/
  | blockedOnSend
  /-- It died of a panic nobody recovered. -/
  | panicked
  deriving DecidableEq, Repr

/-! ## models/proto/udp: `ForwardUserConn`, the datagram loop -/

/-- `pool.GetBuf(size)`: a recycled buffer cut to `size` bytes when it is large enough, a
fresh zeroed one otherwise. The content of a recycled buffer is whatever its last user
left. -/
def GetBuf (size : Nat) (recycled : List Byte) : List Byte :=
  if recycled.length < size then List.replicate size 0 else recycled.take size

/-- One result of `udpConn.ReadFromUDP`. -/
inductive UdpRead where
  /-- A datagram `d` arrived from `raddr`. -/
  | datagram (d : List Byte) (raddr : UDPAddr)
  /-- The read failed. -/
  | error
  deriving DecidableEq, Repr

/-- `udpConn.ReadFromUDP(buf)` on datagram `d`: the first `len(buf)` bytes of `d` are copied
to the front of `buf`, what does not fit is discarded; returns `n` and the buffer. -/
def ReadFromUDP (buf d : List Byte) : Nat × List Byte :=
  let n := min d.length buf.length
  (n, d.take n ++ buf.drop n)

/-- The state of the write loop of `ForwardUserConn`: the pooled buffer, `sendCh`, every
`udpMsg` the loop has built so far (in order), whether the loop closed `udpConn`. -/
structure FwdState where
  buf : List Byte
  sendCh : Chan UdpPacket
  built : List UdpPacket
  udpConnClosed : Bool
  status : GoStatus
  deriving DecidableEq, Repr

/-- The body `for { ... }` of `ForwardUserConn` (udp.go 57-69), run on the results of the
successive `ReadFromUDP` calls. When the results run out the loop waits in `ReadFromUDP`. -/
def forwardLoop : List UdpRead → FwdState → FwdState
  | [], st => st
  | .error :: _, st => { st with udpConnClosed := true, status := .returned }
  | .datagram d raddr :: rest, st =>
    let r := ReadFromUDP st.buf d
    let udpMsg := NewUdpPacket (r.2.take r.1) none (some raddr)
    let st1 := { st with buf := r.2, built := st.built ++ [udpMsg] }
    match st.sendCh.trySend udpMsg with
    | .sent ch => forwardLoop rest { st1 with sendCh := ch }
    | .dropped => forwardLoop rest st1
    | .blocked => { st1 with status := .blockedOnSend }
    | .panic => { st1 with status := .panicked }

/-- The write half of `ForwardUserConn` (udp.go 54-69): `buf := pool.GetBuf(1500)`, then the
loop. -/
def ForwardUserConn (recycled : List Byte) (sendCh : Chan UdpPacket) (reads : List UdpRead) :
    FwdState :=
  forwardLoop reads
    { buf := GetBuf 1500 recycled, sendCh := sendCh, built := [], udpConnClosed := false,
      status := .running }

/-! ## server/proxy/udp.go: `UdpProxy` -/

/-- The messages of `models/msg` that travel on a work connection. -/
inductive Message where
  | Ping
  | UdpPacket (m : UdpPacket)
  | NatHoleSid (sid : String)
  | NatHoleClientDetectOK
  | StartWorkConn (proxyName : String)
  deriving DecidableEq, Repr

/-- One result of `msg.ReadMsg(conn)`. -/
inductive ConnRead where
  /-- A message was read, `errRet == nil`. -/
  | msg (m : Message)
  /-- The read failed (deadline, EOF, closed connection, bad frame). -/
  | error
  deriving DecidableEq, Repr

/-- What the proxy does to the world outside its own fields, in the order it does it, and
the write of its own flag `isClosed`. -/
inductive Event where
  /-- The assignment `pxy.isClosed = true`. -/
  | setIsClosed
  /-- `UdpPortManager.Release(port)`. -/
  | release (port : Int)
  /-- `l.Close()` on the listener with this id (`BaseProxy.Close`). -/
  | closeListener (id : Nat)
  /-- `Close()` on the work connection with this id. -/
  | closeWorkConn (id : Nat)
  /-- `Close()` on the UDP socket with this id. -/
  | closeUdpConn (id : Nat)
  /-- `close(pxy.checkCloseCh)`. -/
  | closeCheckCloseCh
  /-- `close(pxy.readCh)`. -/
  | closeReadCh
  /-- `close(pxy.sendCh)`. -/
  | closeSendCh
  /-- The work-connection supervisor goroutine is started (udp.go 159). -/
  | goSupervisor
  /-- The goroutine running `udp.ForwardUserConn` is started (udp.go 196). -/
  | goForwardUserConn
  /-- The send `pxy.checkCloseCh <- 1` went through: the supervisor received the 1. -/
  | signalCheckCloseCh
  /-- `statsCollector.Mark(stats.TypeAddTrafficIn, {ProxyName, TrafficBytes})`. -/
  | addTrafficIn (proxyName : String) (trafficBytes : Int)
  /-- `statsCollector.Mark(stats.TypeAddTrafficOut, {ProxyName, TrafficBytes})`. -/
  | addTrafficOut (proxyName : String) (trafficBytes : Int)
  deriving DecidableEq, Repr

/-- A `net.Conn` or `*net.UDPConn`: an identity and whether `Close` was called on it. -/
structure Conn where
  id : Nat
  closed : Bool
  deriving DecidableEq, Repr

/-- `UdpProxy` (udp.go 32-55) with the fields of `BaseProxy` it uses; a nil pointer or nil
channel is `none`. `RemotePort` is `cfg.RemotePort`. -/
structure UdpProxy where
  name : String
  listeners : List Nat
  RemotePort : Int
  realPort : Int
  udpConn : Option Conn
  workConn : Option Conn
  sendCh : Option (Chan UdpPacket)
  readCh : Option (Chan UdpPacket)
  checkCloseCh : Option (Chan Int)
  isClosed : Bool
  deriving DecidableEq, Repr

/-- The outcome of a call: the proxy afterwards, the events in order, and the panic that
ended the call, if one did. -/
structure Effect where
  pxy : UdpProxy
  events : List Event
  panic : Option String
  deriving DecidableEq, Repr

/-- Modelled from the spec: `BaseProxy.Close` of server/proxy/proxy.go, which is not among
the sources; "close listeners": every listener of the proxy is closed, in order. -/
def BaseProxy.Close (listeners : List Nat) : List Event :=
  listeners.map Event.closeListener

/-- `UdpProxy.Close` (udp.go 207-225). -/
def UdpProxy.Close (pxy : UdpProxy) : Effect :=
  if !pxy.isClosed then
    let pxy := { pxy with isClosed := true }
    let ev := [Event.setIsClosed] ++ BaseProxy.Close pxy.listeners
    let pxy1 : UdpProxy := match pxy.workConn with
      | some w => { pxy with workConn := some { w with closed := true } }
      | none => pxy
    let ev := match pxy.workConn with
      | some w => ev ++ [Event.closeWorkConn w.id]
      | none => ev
    match pxy1.udpConn with
    | none => { pxy := pxy1, events := ev, panic := some "nil pointer dereference" }
    | some u =>
      let pxy2 := { pxy1 with udpConn := some { u with closed := true } }
      let ev := ev ++ [Event.closeUdpConn u.id]
      match closeChan pxy2.checkCloseCh with
      | .error e => { pxy := pxy2, events := ev, panic := some e }
      | .ok c =>
        let pxy3 := { pxy2 with checkCloseCh := some c }
        let ev := ev ++ [Event.closeCheckCloseCh]
        match closeChan pxy3.readCh with
        | .error e => { pxy := pxy3, events := ev, panic := some e }
        | .ok r =>
          let pxy4 := { pxy3 with readCh := some r }
          let ev := ev ++ [Event.closeReadCh]
          match closeChan pxy4.sendCh with
          | .error e => { pxy := pxy4, events := ev, panic := some e }
          | .ok s =>
            { pxy := { pxy4 with sendCh := some s },
              events := ev ++ [Event.closeSendCh] ++ [Event.release pxy4.realPort],
              panic := none }
  else
    { pxy := pxy, events := [Event.release pxy.realPort], panic := none }

/-- What `UdpProxy.Run` asks of the world: the answers of `UdpPortManager.Acquire` (both
results, the port and the error, `none` being nil), of `net.ResolveUDPAddr` and of
`net.ListenUDP`, and `g.GlbServerCfg.ProxyBindAddr`. -/
structure RunEnv where
  Acquire : String → Int → Int × Option String
  ResolveUDPAddr : String → Except String UDPAddr
  ListenUDP : UDPAddr → Except String Conn
  ProxyBindAddr : String

/-- The outcome of `UdpProxy.Run`: the named results `remoteAddr` and `err` (`none` is nil),
the proxy afterwards and the events in order. -/
structure RunResult where
  remoteAddr : String
  err : Option String
  pxy : UdpProxy
  events : List Event
  deriving DecidableEq, Repr

/-- The deferred function of `UdpProxy.Run` (udp.go 62-66), run on every return that
follows a successful `Acquire`. -/
def UdpProxy.runDeferred (r : RunResult) : RunResult :=
  match r.err with
  | some _ => { r with events := r.events ++ [Event.release r.pxy.realPort] }
  | none => r

/-- `UdpProxy.Run` (udp.go 57-201), up to the start of its two goroutines. -/
def UdpProxy.Run (env : RunEnv) (pxy : UdpProxy) : RunResult :=
  match env.Acquire pxy.name pxy.RemotePort with
  | (port, some e) =>
    { remoteAddr := "", err := some e, pxy := { pxy with realPort := port }, events := [] }
  | (port, none) =>
    let pxy := { pxy with realPort := port }
    let remoteAddr := ":" ++ toString pxy.realPort
    let pxy := { pxy with RemotePort := pxy.realPort }
    match env.ResolveUDPAddr (env.ProxyBindAddr ++ ":" ++ toString pxy.realPort) with
    | .error errRet =>
      UdpProxy.runDeferred { remoteAddr := remoteAddr, err := some errRet, pxy := pxy,
                             events := [] }
    | .ok addr =>
      match env.ListenUDP addr with
      | .error errRet =>
        UdpProxy.runDeferred { remoteAddr := remoteAddr, err := some errRet, pxy := pxy,
                               events := [] }
      | .ok udpConn =>
        let pxy := { pxy with
          udpConn := some udpConn
          sendCh := some (makeChan UdpPacket 1024)
          readCh := some (makeChan UdpPacket 1024)
          checkCloseCh := some (makeChan Int 0) }
        UdpProxy.runDeferred { remoteAddr := remoteAddr, err := none, pxy := pxy,
                               events := [Event.goSupervisor, Event.goForwardUserConn] }

/-- The state of one `workConnReaderFn` goroutine: the channels of the proxy it uses, its
work connection, the events so far, and the packet it holds while parked in
`pxy.readCh <- m`. -/
structure ReaderState where
  readCh : Chan UdpPacket
  checkCloseCh : Chan Int
  conn : Conn
  events : List Event
  parked : Option UdpPacket
  status : GoStatus
  deriving DecidableEq, Repr

/-- The closure `workConnReaderFn` of `UdpProxy.Run` (udp.go 89-128), run on the results of
the successive `msg.ReadMsg(conn)` calls. `name` is `pxy.GetName()`. When the results run
out the goroutine waits in `ReadMsg`. A panic inside `errors.PanicToError` (send on a closed
channel) comes back as a non-nil error. -/
def workConnReaderFn (name : String) : List ConnRead → ReaderState → ReaderState
  | [], st => st
  | .error :: _, st =>
    let st := { st with conn := { st.conn with closed := true },
                        events := st.events ++ [Event.closeWorkConn st.conn.id] }
    if st.checkCloseCh.closed then { st with status := .returned }
    else { st with events := st.events ++ [Event.signalCheckCloseCh], status := .returned }
  | .msg .Ping :: rest, st => workConnReaderFn name rest st
  | .msg (.UdpPacket m) :: rest, st =>
    match st.readCh.send m with
    | .sent ch =>
      workConnReaderFn name rest
        { st with readCh := ch,
                  events := st.events ++ [Event.addTrafficOut name m.Content.utf8ByteSize] }
    | .blocked => { st with parked := some m, status := .blockedOnSend }
    | .dropped => workConnReaderFn name rest st
    | .panic =>
      { st with conn := { st.conn with closed := true },
                events := st.events ++ [Event.closeWorkConn st.conn.id], status := .returned }
  | .msg _ :: rest, st => workConnReaderFn name rest st

/-- A channel that was made and has not been closed. -/
def chanOpen {α : Type} : Option (Chan α) → Bool
  | some ch => !ch.closed
  | none => false

/-- The proxy has run successfully and has not been closed: `Run` has installed the UDP
socket and the three channels, and `isClosed` is still false. -/
def UdpProxy.isRunning (pxy : UdpProxy) : Bool :=
  !pxy.isClosed && pxy.udpConn.isSome && chanOpen pxy.checkCloseCh && chanOpen pxy.readCh
    && chanOpen pxy.sendCh

/-- The events of two calls of `Close` in a row. -/
def UdpProxy.closeTwiceEvents (pxy : UdpProxy) : List Event :=
  pxy.Close.events ++ pxy.Close.pxy.Close.events

/-! ### Sample inputs -/

/-- A UDP proxy as its constructor leaves it, asking for port 6000. -/
def samplePxy : UdpProxy :=
  { name := "dns", listeners := [], RemotePort := 6000, realPort := 0, udpConn := none,
    workConn := none, sendCh := none, readCh := none, checkCloseCh := none, isClosed := false }

/-- Every call succeeds; the port manager grants the port asked for. -/
def envOk : RunEnv :=
  { Acquire := fun _ p => (p, none)
    ResolveUDPAddr := fun _ => .ok { IP := [0, 0, 0, 0], Port := 6000, Zone := "" }
    ListenUDP := fun _ => .ok { id := 1, closed := false }
    ProxyBindAddr := "0.0.0.0" }

/-- The port manager refuses. -/
def envAcquireFails : RunEnv := { envOk with Acquire := fun _ _ => (0, some "port already used") }

/-- The bind address does not resolve. -/
def envResolveFails : RunEnv := { envOk with ResolveUDPAddr := fun _ => .error "no such host" }

/-- The socket cannot be bound. -/
def envListenFails : RunEnv := { envOk with ListenUDP := fun _ => .error "address in use" }

/-- The sample proxy after a successful `Run`, with work connection 7 installed by the
supervisor. -/
def runningPxy : UdpProxy :=
  { (UdpProxy.Run envOk samplePxy).pxy with workConn := some { id := 7, closed := false } }

/-- A source address. -/
def sampleAddr : UDPAddr := { IP := [10, 0, 0, 9], Port := 5353, Zone := "" }

/-- A packet. -/
def samplePacket : UdpPacket := NewUdpPacket [1, 2, 3] none (some sampleAddr)

/-- A channel of capacity 1024 that holds 1024 packets. -/
def fullChan : Chan UdpPacket :=
  { cap := 1024, buf := List.replicate 1024 samplePacket, closed := false }

/-- The datagram loop in front of a full `sendCh`. -/
def fullFwdState : FwdState :=
  { buf := GetBuf 1500 [], sendCh := fullChan, built := [], udpConnClosed := false,
    status := .running }

/-- A work-conn reader in front of a full `readCh`. -/
def fullReaderState : ReaderState :=
  { readCh := fullChan, checkCloseCh := makeChan Int 0, conn := { id := 7, closed := false },
    events := [], parked := none, status := .running }

/-- The results of `ReadFromUDP` when the datagrams `ds` arrive, each with its source
address, and the socket is closed afterwards. -/
def datagramReads (ds : List (List Byte × UDPAddr)) : List UdpRead :=
  ds.map (fun x => UdpRead.datagram x.1 x.2) ++ [UdpRead.error]

/-- A datagram of exactly 1500 bytes and one of 1501 bytes, from the same source. -/
def sampleDatagrams : List (List Byte × UDPAddr) :=
  [(List.replicate 1500 7, sampleAddr), (List.replicate 1501 9, sampleAddr)]

/-! ## client/visitor_manager.go: `VisitorManager` -/

/-- The two methods of the interface `config.VisitorConf` that the manager calls:
`GetBaseInfo().ProxyName` and `Compare`. The interface is declared in models/config. -/
structure ConfOps (C : Type) where
  ProxyName : C → String
  Compare : C → C → Bool

/-- A Go `map[string]V`, as the list of its entries; `range` visits them in list order. -/
abbrev GoMap (V : Type) := List (String × V)

/-- The lookup `v, ok := m[k]`. -/
def GoMap.get {V : Type} (m : GoMap V) (k : String) : Option V :=
  (m.find? (fun p => p.1 == k)).map Prod.snd

/-- The statement `delete(m, k)`. -/
def GoMap.delete {V : Type} (m : GoMap V) (k : String) : GoMap V :=
  m.filter (fun p => !(p.1 == k))

/-- The statement `m[k] = v`. -/
def GoMap.set {V : Type} (m : GoMap V) (k : String) (v : V) : GoMap V :=
  if (m.get k).isSome then m.map (fun p => if p.1 == k then (k, v) else p)
  else m ++ [(k, v)]

/-- What `Reload` does to visitors, in order. A visitor is named by the config it was made
from (`NewVisitor(vm.ctl, cfg)`). -/
inductive VEvent (C : Type) where
  /-- `visitor.Close()` on the visitor stored under `name`. -/
  | close (name : String) (visitor : C)
  /-- `NewVisitor(vm.ctl, cfg)` followed by `visitor.Run()`; `ok` says that `err == nil`. -/
  | run (cfg : C) (ok : Bool)
  deriving DecidableEq, Repr

/-- The test "this event is a `Close`". -/
def VEvent.isClose {C : Type} : VEvent C → Bool
  | .close _ _ => true
  | .run _ _ => false

/-- The fields `cfgs` and `visitors` of `VisitorManager`, and the events so far. -/
structure VisitorManager (C : Type) where
  cfgs : GoMap C
  visitors : GoMap C
  trace : List (VEvent C)
  deriving DecidableEq, Repr

/-- `VisitorManager.startVisitor` (visitor_manager.go 61-72). `Run trace cfg` says whether
`visitor.Run()` of a visitor made from `cfg` succeeds after the events `trace`. -/
def VisitorManager.startVisitor {C : Type} (ops : ConfOps C) (Run : List (VEvent C) → C → Bool)
    (vm : VisitorManager C) (cfg : C) : VisitorManager C :=
  let name := ops.ProxyName cfg
  if Run vm.trace cfg then
    { vm with visitors := vm.visitors.set name cfg, trace := vm.trace ++ [.run cfg true] }
  else
    { vm with trace := vm.trace ++ [.run cfg false] }

/-- The flag `del` of the first loop of `Reload` (visitor_manager.go 80-88). -/
def Reload.del {C : Type} (ops : ConfOps C) (cfgs : GoMap C) (name : String) (oldCfg : C) :
    Bool :=
  match cfgs.get name with
  | none => true
  | some cfg => !ops.Compare oldCfg cfg

/-- The first loop of `Reload` (visitor_manager.go 79-98), over the entries of `vm.cfgs`. -/
def Reload.removeLoop {C : Type} (ops : ConfOps C) (cfgs : GoMap C) :
    List (String × C) → VisitorManager C → VisitorManager C
  | [], vm => vm
  | (name, oldCfg) :: rest, vm =>
    if Reload.del ops cfgs name oldCfg then
      let trace := match vm.visitors.get name with
        | some visitor => vm.trace ++ [VEvent.close name visitor]
        | none => vm.trace
      Reload.removeLoop ops cfgs rest
        { cfgs := vm.cfgs.delete name, visitors := vm.visitors.delete name, trace := trace }
    else Reload.removeLoop ops cfgs rest vm

/-- The second loop of `Reload` (visitor_manager.go 104-110), over the entries of `cfgs`. -/
def Reload.addLoop {C : Type} (ops : ConfOps C) (Run : List (VEvent C) → C → Bool) :
    List (String × C) → VisitorManager C → VisitorManager C
  | [], vm => vm
  | (name, cfg) :: rest, vm =>
    match vm.cfgs.get name with
    | none =>
      Reload.addLoop ops Run rest
        (VisitorManager.startVisitor ops Run { vm with cfgs := vm.cfgs.set name cfg } cfg)
    | some _ => Reload.addLoop ops Run rest vm

/-- `VisitorManager.Reload` (visitor_manager.go 74-115). -/
def VisitorManager.Reload {C : Type} (ops : ConfOps C) (Run : List (VEvent C) → C → Bool)
    (vm : VisitorManager C) (cfgs : GoMap C) : VisitorManager C :=
  Reload.addLoop ops Run cfgs (Reload.removeLoop ops cfgs vm.cfgs vm)

/-- A sample visitor config: its proxy name, the server it visits, the port it binds. -/
structure SampleConf where
  ProxyName : String
  ServerName : String
  BindPort : Nat
  deriving DecidableEq, Repr

/-- The methods of the sample config; `Compare` is equality of all fields. -/
def sampleOps : ConfOps SampleConf :=
  { ProxyName := fun c => c.ProxyName, Compare := fun a b => decide (a = b) }

/-- A manager with two visitors. -/
def sampleVm : VisitorManager SampleConf :=
  { cfgs := [("a", ⟨"a", "srvA", 9000⟩), ("b", ⟨"b", "srvB", 9001⟩)]
    visitors := [("a", ⟨"a", "srvA", 9000⟩), ("b", ⟨"b", "srvB", 9001⟩)]
    trace := [] }

/-- A new config map: `a` as before, `b` moved to another port. -/
def sampleCfgs : GoMap SampleConf :=
  [("b", ⟨"b", "srvB", 9100⟩), ("a", ⟨"a", "srvA", 9000⟩)]

/-! ## server/proxy/https.go: `HttpsProxy` -/

/-- A `vhost.Listener`: the domain it was made for and the log prefixes added to it. -/
structure Listener where
  Domain : String
  logPrefixes : List String
  deriving DecidableEq, Repr

/-- `l.AddLogPrefix(prefix)`. -/
def Listener.AddLogPrefix (l : Listener) (pfx : String) : Listener :=
  { l with logPrefixes := l.logPrefixes ++ [pfx] }

/-- What `HttpsProxy.Run` uses and does not define: `VhostHttpsMuxer.Listen` as a function
of the state `σ` of the muxer and of `routeConfig.Domain` (the only field `Run` sets),
`util.CanonicalAddr`, and `VhostHttpsPort` and `SubDomainHost` of `g.GlbServerCfg`. -/
structure HttpsEnv (σ : Type) where
  Listen : σ → String → Except String (Listener × σ)
  CanonicalAddr : String → Int → String
  VhostHttpsPort : Int
  SubDomainHost : String

/-- The fields of `HttpsProxy` that `Run` reads (`name`, `cfg.CustomDomains`,
`cfg.SubDomain`) or writes (`listeners`). -/
structure HttpsProxy where
  name : String
  CustomDomains : List String
  SubDomain : String
  listeners : List Listener
  deriving DecidableEq, Repr

/-- The variables of `HttpsProxy.Run`: `pxy.listeners`, `addrs`, the named result `err`, the
state of the muxer, and whether `startListenHandler` has been called. -/
structure HttpsState (σ : Type) where
  listeners : List Listener
  addrs : List String
  err : Option String
  mux : σ
  handlerStarted : Bool

/-- The outcome of `HttpsProxy.Run`: the named results and the state at the return. -/
structure HttpsResult (σ : Type) where
  remoteAddr : String
  err : Option String
  st : HttpsState σ

/-- The body shared by the loop and by the sub-domain block of `HttpsProxy.Run`
(https.go 40-49 and 53-62): listen for `domain`, and on success keep the listener and the
canonical address. -/
def HttpsProxy.listenDomain {σ : Type} (env : HttpsEnv σ) (name : String) (domain : String)
    (st : HttpsState σ) : HttpsState σ :=
  match env.Listen st.mux domain with
  | .error errRet => { st with err := some errRet }
  | .ok (l, mux) =>
    { st with listeners := st.listeners ++ [l.AddLogPrefix name],
              addrs := st.addrs ++ [env.CanonicalAddr domain env.VhostHttpsPort],
              mux := mux }

/-- The loop over `pxy.cfg.CustomDomains` (https.go 35-50); it stops at the first error,
on which `Run` returns. -/
def HttpsProxy.customDomainsLoop {σ : Type} (env : HttpsEnv σ) (name : String) :
    List String → HttpsState σ → HttpsState σ
  | [], st => st
  | domain :: rest, st =>
    if domain = "" then HttpsProxy.customDomainsLoop env name rest st
    else
      let st1 := HttpsProxy.listenDomain env name domain st
      match st1.err with
      | some _ => st1
      | none => HttpsProxy.customDomainsLoop env name rest st1

/-- `HttpsProxy.Run` (https.go 31-68). -/
def HttpsProxy.Run {σ : Type} (env : HttpsEnv σ) (mux : σ) (pxy : HttpsProxy) :
    HttpsResult σ :=
  let st0 : HttpsState σ :=
    { listeners := pxy.listeners, addrs := [], err := none, mux := mux,
      handlerStarted := false }
  let st1 := HttpsProxy.customDomainsLoop env pxy.name pxy.CustomDomains st0
  match st1.err with
  | some e => { remoteAddr := "", err := some e, st := st1 }
  | none =>
    let st2 :=
      if pxy.SubDomain ≠ "" then
        HttpsProxy.listenDomain env pxy.name (pxy.SubDomain ++ "." ++ env.SubDomainHost) st1
      else st1
    match st2.err with
    | some e => { remoteAddr := "", err := some e, st := st2 }
    | none =>
      { remoteAddr := String.intercalate "," st2.addrs, err := none,
        st := { st2 with handlerStarted := true } }

/-- The domains the spec lists for the advertised address: the non-empty custom domains in
configuration order, then `SubDomain + "." + SubDomainHost` when `SubDomain` is non-empty. -/
def HttpsProxy.advertisedDomains (pxy : HttpsProxy) (subDomainHost : String) : List String :=
  pxy.CustomDomains.filter (fun d => d ≠ "")
    ++ (if pxy.SubDomain ≠ "" then [pxy.SubDomain ++ "." ++ subDomainHost] else [])

/-- A muxer that hands every domain out once: its state is the list of domains taken. -/
def sampleHttpsEnv : HttpsEnv (List String) :=
  { Listen := fun taken d =>
      if d ∈ taken then .error "vhost already exists"
      else .ok ({ Domain := d, logPrefixes := [] }, taken ++ [d])
    CanonicalAddr := fun host port => if port = 443 then host else host ++ ":" ++ toString port
    VhostHttpsPort := 8443
    SubDomainHost := "frps.com" }

/-- A proxy with two custom domains, an empty one between them, and a sub-domain. -/
def sampleHttpsProxy : HttpsProxy :=
  { name := "web", CustomDomains := ["a.com", "", "b.com"], SubDomain := "test", listeners := [] }

/-! ## server/proxy/xtcp.go: `XtcpProxy` -/

/-- A `nathole.SidRequest`; the element type `struct{}` of `NotifyCh` is `Unit`. -/
structure SidRequest where
  Sid : String
  NotifyCh : Chan Unit
  deriving DecidableEq, Repr

/-- What the request loop of `XtcpProxy.Run` does, in order. -/
inductive XEvent where
  /-- `msg.WriteMsg(workConn, &msg.NatHoleSid{Sid: sid})` on the work conn with this id. -/
  | writeSid (conn : Nat) (sid : String)
  /-- `workConn.Close()`. -/
  | closeWorkConn (conn : Nat)
  /-- The goroutine of xtcp.go 61-78 is started on this work conn. -/
  | goDetect (conn : Nat)
  /-- The statement `select { case sr.NotifyCh <- struct{}{}: default: }` of the request with
  this sid is executed. -/
  | notify (sid : String)
  deriving DecidableEq, Repr

/-- The answers of the world while one `SidRequest` is handled: `GetWorkConnFromPool` (`none`
is an error), whether `msg.WriteMsg` returned nil, the result of the one `msg.ReadMsg`, and
whether a receiver is parked on `NotifyCh` when the signal is tried. -/
structure SidAnswers where
  workConn : Option Conn
  writeOk : Bool
  read : ConnRead
  receiverWaiting : Bool
  deriving DecidableEq, Repr

/-- How a statement list ends inside `for { select { ... } }`. -/
inductive Ctl where
  /-- The end of the `case` clause was reached. -/
  | endOfCase
  /-- A `break` statement. -/
  | breakStmt
  /-- A `continue` statement. -/
  | continueStmt
  /-- A `return` statement. -/
  | returnStmt
  deriving DecidableEq, Repr

/-- The outcome of handling one request: how the `case` clause ended, the events in order
(those of the goroutine it started included), `NotifyCh` afterwards, whether the signal was
taken by `NotifyCh`, and whether the goroutine panicked on a closed `NotifyCh`. -/
structure SidOutcome where
  ctl : Ctl
  events : List XEvent
  NotifyCh : Chan Unit
  delivered : Bool
  panicked : Bool
  deriving DecidableEq, Repr

/-- The goroutine of xtcp.go 61-78, started once the sid has been written. -/
def XtcpProxy.detectFn (workConn : Conn) (sr : SidRequest) (a : SidAnswers) : SidOutcome :=
  match a.read with
  | .error =>
    { ctl := .returnStmt, events := [.closeWorkConn workConn.id], NotifyCh := sr.NotifyCh,
      delivered := false, panicked := false }
  | .msg .NatHoleClientDetectOK =>
    if sr.NotifyCh.closed then
      { ctl := .endOfCase, events := [.notify sr.Sid], NotifyCh := sr.NotifyCh,
        delivered := false, panicked := true }
    else if a.receiverWaiting then
      { ctl := .endOfCase, events := [.notify sr.Sid], NotifyCh := sr.NotifyCh,
        delivered := true, panicked := false }
    else
      match sr.NotifyCh.trySend () with
      | .sent ch =>
        { ctl := .endOfCase, events := [.notify sr.Sid], NotifyCh := ch, delivered := true,
          panicked := false }
      | _ =>
        { ctl := .endOfCase, events := [.notify sr.Sid], NotifyCh := sr.NotifyCh,
          delivered := false, panicked := false }
  | .msg _ =>
    { ctl := .returnStmt, events := [.closeWorkConn workConn.id], NotifyCh := sr.NotifyCh,
      delivered := false, panicked := false }

/-- The clause `case sidRequest := <-sidCh:` of the loop (xtcp.go 45-78), with what the
goroutine it starts does. -/
def XtcpProxy.handleSidRequest (sr : SidRequest) (a : SidAnswers) : SidOutcome :=
  match a.workConn with
  | none =>
    { ctl := .continueStmt, events := [], NotifyCh := sr.NotifyCh, delivered := false,
      panicked := false }
  | some workConn =>
    if a.writeOk then
      let g := XtcpProxy.detectFn workConn sr a
      { g with ctl := .endOfCase,
               events := [.writeSid workConn.id sr.Sid, .goDetect workConn.id] ++ g.events }
    else
      { ctl := .breakStmt, events := [.writeSid workConn.id sr.Sid, .closeWorkConn workConn.id],
        NotifyCh := sr.NotifyCh, delivered := false, panicked := false }

/-- Where the request loop stands. -/
inductive LoopStatus where
  /-- The `for` statement takes its next iteration. -/
  | looping
  /-- The goroutine has returned. -/
  | exited
  deriving DecidableEq, Repr

/-- What the enclosing `for { select { ... } }` does when a clause of the `select` ends with
`c`: a `break` ends the `select` statement, the innermost statement it can end, and the `for`
goes on; so do `continue` and the end of the clause; only `return` leaves the loop. -/
def forSelectAfter : Ctl → LoopStatus
  | .endOfCase => .looping
  | .breakStmt => .looping
  | .continueStmt => .looping
  | .returnStmt => .exited

/-- The state of the goroutine started by `XtcpProxy.Run` (xtcp.go 40-81): `pxy.closeCh`, the
requests waiting on `sidCh` with the answers the world will give for each, the events so far,
the sids handled so far, and the number of iterations taken. -/
structure XtcpLoop where
  closeCh : Chan Unit
  sidCh : List (SidRequest × SidAnswers)
  events : List XEvent
  handled : List String
  iterations : Nat
  status : LoopStatus
  deriving DecidableEq, Repr

/-- The clause `case <-pxy.closeCh: break` (xtcp.go 43-44). -/
def XtcpProxy.closeCase (st : XtcpLoop) : XtcpLoop :=
  { st with iterations := st.iterations + 1, status := forSelectAfter .breakStmt }

/-- The clause `case sidRequest := <-sidCh:` taken on the first waiting request. -/
def XtcpProxy.sidCase (r : SidRequest × SidAnswers) (rest : List (SidRequest × SidAnswers))
    (st : XtcpLoop) : XtcpLoop :=
  let o := XtcpProxy.handleSidRequest r.1 r.2
  { st with sidCh := rest, events := st.events ++ o.events, handled := st.handled ++ [r.1.Sid],
            iterations := st.iterations + 1, status := forSelectAfter o.ctl }

/-- One iteration of the loop: the `select` takes a clause that can proceed (a receive from
the closed `closeCh`, a receive of a waiting request); when both can, `pickClose` says which
one the runtime picks; when none can, the goroutine stays parked in the `select`. -/
def XtcpProxy.iteration (pickClose : Bool) (st : XtcpLoop) : XtcpLoop :=
  match st.status with
  | .exited => st
  | .looping =>
    match st.closeCh.closed, st.sidCh with
    | false, [] => st
    | true, [] => XtcpProxy.closeCase st
    | false, r :: rest => XtcpProxy.sidCase r rest st
    | true, r :: rest => if pickClose then XtcpProxy.closeCase st else XtcpProxy.sidCase r rest st

/-- The loop, run for the iterations whose picks are listed. -/
def XtcpProxy.loop : List Bool → XtcpLoop → XtcpLoop
  | [], st => st
  | pick :: picks, st => XtcpProxy.loop picks (XtcpProxy.iteration pick st)

/-- The last statement of `XtcpProxy.Close` (xtcp.go 92-94), `close(pxy.closeCh)` under
`errors.PanicToError`, as the loop sees it: the channel is closed afterwards; the panic of a
second close is absorbed. -/
def XtcpProxy.Close (st : XtcpLoop) : XtcpLoop :=
  { st with closeCh := { st.closeCh with closed := true } }

/-- A request whose owner answers as it should. -/
def sampleSid : SidRequest × SidAnswers :=
  ({ Sid := "sid-1", NotifyCh := makeChan Unit 0 },
   { workConn := some { id := 3, closed := false }, writeOk := true,
     read := .msg .NatHoleClientDetectOK, receiverWaiting := true })

/-- The loop as `Run` starts it, `closeCh` open and no request waiting. -/
def sampleLoop : XtcpLoop :=
  { closeCh := makeChan Unit 0, sidCh := [], events := [], handled := [], iterations := 0,
    status := .looping }

/-! ## server/proxy/udp.go: the sender and the supervisor of the work connection -/

/-- The `UdpPacket` messages of a sequence of messages, in order. -/
def udpPacketsOf : List Message → List UdpPacket
  | [] => []
  | .UdpPacket m :: rest => m :: udpPacketsOf rest
  | _ :: rest => udpPacketsOf rest

/-- What the `select` of `workConnSenderFn` takes in one iteration: the receive from
`pxy.sendCh`, with the answer `msg.WriteMsg` gives if a packet is received (`true` is a nil
error), or `<-ctx.Done()`. -/
inductive SenderSelect where
  | recv (writeOk : Bool)
  | ctxDone
  deriving DecidableEq, Repr

/-- The state of one `workConnSenderFn` goroutine: `pxy.sendCh`, its work connection, the
packets written to it, the events so far. -/
structure SenderState where
  sendCh : Chan UdpPacket
  conn : Conn
  written : List UdpPacket
  events : List Event
  status : GoStatus
  deriving DecidableEq, Repr

/-- The closure `workConnSenderFn` of `UdpProxy.Run` (udp.go 131-157), run on what its
`select` takes in the successive iterations. `name` is `pxy.GetName()`. A receive from an
empty open `sendCh` leaves the goroutine waiting in the `select`. -/
def workConnSenderFn (name : String) : List SenderSelect → SenderState → SenderState
  | [], st => st
  | .ctxDone :: _, st => { st with status := .returned }
  | .recv writeOk :: rest, st =>
    match st.sendCh.buf with
    | [] => if st.sendCh.closed then { st with status := .returned } else st
    | udpMsg :: buf =>
      let st := { st with sendCh := { st.sendCh with buf := buf } }
      if writeOk then
        workConnSenderFn name rest
          { st with written := st.written ++ [udpMsg],
                    events := st.events ++
                      [Event.addTrafficIn name udpMsg.Content.utf8ByteSize] }
      else
        { st with conn := { st.conn with closed := true },
                  events := st.events ++ [Event.closeWorkConn st.conn.id],
                  status := .returned }

/-- One answer of `pxy.GetWorkConnFromPool(nil, nil)`. -/
inductive PoolAnswer where
  | conn (c : Conn)
  | error
  deriving DecidableEq, Repr

/-- What a receive from `pxy.checkCloseCh` finds. -/
inductive CheckCloseRecv where
  /-- The 1 of a reader: `ok` is true. -/
  | signal
  /-- The channel is closed: `ok` is false. -/
  | closed
  /-- Nothing: the polling `select` takes `default`, the plain receive stays parked. -/
  | nothing
  deriving DecidableEq, Repr

/-- The answers of the world in one iteration of the supervisor: that of the pool and what
the receive from `checkCloseCh` of that iteration finds. -/
structure SupInput where
  pool : PoolAnswer
  recv : CheckCloseRecv
  deriving DecidableEq, Repr

/-- What the supervisor does, in order. -/
inductive SupEvent where
  /-- `time.Sleep` of this many milliseconds. -/
  | sleep (ms : Nat)
  /-- `pxy.workConn.Close()` on the work conn with this id. -/
  | closeWorkConn (id : Nat)
  /-- `pxy.workConn = workConn`, the work conn with this id. -/
  | install (id : Nat)
  /-- `go workConnReaderFn(workConn)`. -/
  | goReader (id : Nat)
  /-- `go workConnSenderFn(workConn, ctx)`. -/
  | goSender (id : Nat)
  /-- `cancel()` of the context of the sender on this work conn. -/
  | cancel (id : Nat)
  deriving DecidableEq, Repr

/-- The test "this event closes or installs a work conn". -/
def SupEvent.isConn : SupEvent → Bool
  | .closeWorkConn _ => true
  | .install _ => true
  | _ => false

/-- Where the supervisor stands. -/
inductive SupStatus where
  /-- It takes its next iteration. -/
  | looping
  /-- It is parked in `<-pxy.checkCloseCh` (udp.go 184). -/
  | parked
  /-- It has returned. -/
  | returned
  deriving DecidableEq, Repr

/-- The state of the supervisor goroutine (udp.go 159-190): `pxy.workConn`, the ids of the
work conns it has installed, oldest first, the events so far. -/
structure Supervisor where
  workConn : Option Conn
  installed : List Nat
  events : List SupEvent
  status : SupStatus
  deriving DecidableEq, Repr

/-- The supervisor as `Run` starts it, after its first sleep of 500 ms: no work conn yet. -/
def Supervisor.init : Supervisor :=
  { workConn := none, installed := [], events := [.sleep 500], status := .looping }

/-- One iteration of the `for` of the supervisor (udp.go 162-189). -/
def Supervisor.iteration (inp : SupInput) (st : Supervisor) : Supervisor :=
  match inp.pool with
  | .error =>
    let st := { st with events := st.events ++ [SupEvent.sleep 1000] }
    match inp.recv with
    | .closed => { st with status := .returned }
    | .signal => st
    | .nothing => st
  | .conn workConn =>
    let ev := match st.workConn with
      | some old => st.events ++ [SupEvent.closeWorkConn old.id]
      | none => st.events
    let st := { st with workConn := some workConn,
                        installed := st.installed ++ [workConn.id],
                        events := ev ++ [SupEvent.install workConn.id,
                                         SupEvent.goReader workConn.id,
                                         SupEvent.goSender workConn.id] }
    match inp.recv with
    | .signal => { st with events := st.events ++ [SupEvent.cancel workConn.id] }
    | .closed =>
      { st with events := st.events ++ [SupEvent.cancel workConn.id], status := .returned }
    | .nothing => { st with status := .parked }

/-- The supervisor, run on the answers of the successive iterations; it takes no iteration
once it has returned or is parked. -/
def Supervisor.loop : List SupInput → Supervisor → Supervisor
  | [], st => st
  | inp :: rest, st =>
    match st.status with
    | .looping => Supervisor.loop rest (Supervisor.iteration inp st)
    | .parked => st
    | .returned => st

/-- The closes and installs of a supervisor that has installed the work conns `ids`, after
one whose id is `prev` (if any): every install but the first comes right after the close of
the work conn installed before it. -/
def connChain (prev : Option Nat) : List Nat → List SupEvent
  | [] => []
  | c :: rest =>
    (match prev with
      | some p => [SupEvent.closeWorkConn p]
      | none => []) ++ [SupEvent.install c] ++ connChain (some c) rest

/-- What holds of the supervisor between two iterations: its closes and installs form the
chain of the work conns it has installed, and `pxy.workConn` is the last of them. -/
def Supervisor.Inv (st : Supervisor) : Prop :=
  st.events.filter SupEvent.isConn = connChain none st.installed ∧
  st.workConn.map (fun c => c.id) = st.installed.getLast?

/-! ## client/health/health.go: `HealthCheckMonitor` -/

/-- The conversion `int(v)` of a `uint64` on a 64-bit platform. -/
def uint64ToInt (v : Nat) : Int :=
  if v % 2 ^ 64 < 2 ^ 63 then (v % 2 ^ 64 : Nat) else ((v % 2 ^ 64 : Nat) : Int) - 2 ^ 64

/-- An `int64` product, as `time.Duration(s) * time.Second` computes it. -/
def mulInt64 (a b : Int) : Int :=
  (a * b + 2 ^ 63) % 2 ^ 64 - 2 ^ 63

/-- `time.Second`, in nanoseconds. -/
def timeSecond : Int := 1000000000

/-- `HealthCheckMonitor` (health.go 34-55) without its context and logger; of the two
callbacks it keeps whether they are non-nil. -/
structure HealthCheckMonitor where
  checkType : String
  interval : Int
  timeout : Int
  maxFailedTimes : Int
  addr : String
  url : String
  failedTimes : Nat
  statusOK : Bool
  statusNormalFn : Bool
  statusFailedFn : Bool
  deriving DecidableEq, Repr

/-- `NewHealthCheckMonitor` (health.go 57-83). -/
def NewHealthCheckMonitor (checkType : String) (intervalS timeoutS maxFailedTimes : Int)
    (addr url : String) (statusNormalFn statusFailedFn : Bool) : HealthCheckMonitor :=
  let intervalS := if intervalS ≤ 0 then 10 else intervalS
  let timeoutS := if timeoutS ≤ 0 then 3 else timeoutS
  let maxFailedTimes := if maxFailedTimes ≤ 0 then 1 else maxFailedTimes
  { checkType := checkType
    interval := mulInt64 intervalS timeSecond
    timeout := mulInt64 timeoutS timeSecond
    maxFailedTimes := maxFailedTimes
    addr := addr
    url := url
    failedTimes := 0
    statusOK := false
    statusNormalFn := statusNormalFn
    statusFailedFn := statusFailedFn }

/-- The two callbacks of the monitor. -/
inductive StatusFn where
  | statusNormalFn
  | statusFailedFn
  deriving DecidableEq, Repr

/-- The outcome of one health check as `checkWorker` sees it: whether `doCheck` returned an
error, and whether the context of the check is done when the worker looks at it. -/
structure CheckResult where
  failed : Bool
  ctxDone : Bool
  deriving DecidableEq, Repr

/-- The statement `if err == nil { ... } else { ... }` of `checkWorker` (health.go 111-134):
the monitor afterwards and the callback invoked, if one is. -/
def HealthCheckMonitor.afterCheck (monitor : HealthCheckMonitor) (failed : Bool) :
    HealthCheckMonitor × Option StatusFn :=
  if !failed then
    if !monitor.statusOK && monitor.statusNormalFn then
      ({ monitor with statusOK := true }, some .statusNormalFn)
    else (monitor, none)
  else
    let monitor := { monitor with failedTimes := (monitor.failedTimes + 1) % 2 ^ 64 }
    if monitor.statusOK && decide (uint64ToInt monitor.failedTimes ≥ monitor.maxFailedTimes)
        && monitor.statusFailedFn then
      ({ monitor with statusOK := false }, some .statusFailedFn)
    else (monitor, none)

/-- The state of the goroutine `checkWorker`: the monitor, what each check it has gone
through has invoked, in order, and whether it has returned. -/
structure CheckWorker where
  monitor : HealthCheckMonitor
  calls : List (Option StatusFn)
  status : GoStatus
  deriving DecidableEq, Repr

/-- `HealthCheckMonitor.checkWorker` (health.go 97-138), run on the outcomes of the
successive checks. -/
def HealthCheckMonitor.checkWorker : List CheckResult → CheckWorker → CheckWorker
  | [], w => w
  | c :: rest, w =>
    if c.ctxDone then { w with status := .returned }
    else
      let r := w.monitor.afterCheck c.failed
      HealthCheckMonitor.checkWorker rest { w with monitor := r.1, calls := w.calls ++ [r.2] }

/-- A TCP monitor with `maxFailedTimes` 2 and both callbacks. -/
def sampleMonitor : HealthCheckMonitor :=
  NewHealthCheckMonitor "tcp" 10 3 2 "127.0.0.1:80" "" true true

/-- A work-conn reader of a proxy that has just run: `readCh` empty. -/
def freshReaderState : ReaderState :=
  { readCh := makeChan UdpPacket 1024, checkCloseCh := makeChan Int 0,
    conn := { id := 7, closed := false }, events := [], parked := none, status := .running }

/-- A second packet. -/
def samplePacket2 : UdpPacket := NewUdpPacket [4, 5] none (some sampleAddr)

/-- Messages as a client sends them on a work conn: heartbeats between packets. -/
def sampleMsgs : List Message :=
  [.Ping, .UdpPacket samplePacket, .Ping, .UdpPacket samplePacket2]

/-- Answers for four iterations: a work conn, the pool failing once, then two more work
conns, the last one still in use. -/
def sampleSupInputs : List SupInput :=
  [{ pool := .conn { id := 1, closed := false }, recv := .signal },
   { pool := .error, recv := .nothing },
   { pool := .conn { id := 2, closed := false }, recv := .signal },
   { pool := .conn { id := 3, closed := false }, recv := .nothing }]

/-- A sender with one packet waiting on `sendCh`. -/
def sampleSenderState : SenderState :=
  { sendCh := { cap := 1024, buf := [NewUdpPacket (List.replicate 20 0) none (some sampleAddr)],
                closed := false },
    conn := { id := 7, closed := false }, written := [], events := [], status := .running }

/-! ## Theorems -/

theorem decChar_encChar (i : Nat) (h : i < 64) : decChar (encChar i) = some i := by
  interval_cases i <;> rfl

theorem decChar_padChar : decChar padChar = none := by rfl

theorem encChar_keep (i : Nat) (h : i < 64) :
    (encChar i != '\r' && encChar i != '\n') = true := by
  interval_cases i <;> rfl

theorem padChar_keep : (padChar != '\r' && padChar != '\n') = true := by rfl

theorem filter_b64Encode (buf : List Byte) :
    (b64Encode buf).filter (fun c => c != '\r' && c != '\n') = b64Encode buf := by
  induction buf using b64Encode.induct with
  | case1 => rfl
  | case2 a =>
    simp only [b64Encode]
    simp [List.filter, encChar_keep _ (Nat.mod_lt _ (by decide : 0 < 64)), padChar_keep]
  | case3 a b =>
    simp only [b64Encode]
    simp [List.filter, encChar_keep _ (Nat.mod_lt _ (by decide : 0 < 64)), padChar_keep]
  | case4 a b c rest ih =>
    simp only [b64Encode]
    simp [List.filter, encChar_keep _ (Nat.mod_lt _ (by decide : 0 < 64)), ih]

theorem decodeQuanta_b64Encode (buf : List Byte) :
    decodeQuanta (b64Encode buf) = some buf := by
  induction buf using b64Encode.induct with
  | case1 => rfl
  | case2 a =>
    have ha := a.isLt
    simp only [b64Encode, decodeQuanta,
      decChar_encChar _ (Nat.mod_lt _ (by decide : 0 < 64)), decChar_padChar]
    simp only [and_self, if_true, Option.some.injEq, List.cons.injEq, and_true]
    apply Fin.ext
    simp only [toByte]
    omega
  | case3 a b =>
    have ha := a.isLt
    have hb := b.isLt
    simp only [b64Encode, decodeQuanta,
      decChar_encChar _ (Nat.mod_lt _ (by decide : 0 < 64)), decChar_padChar]
    simp only [and_self, if_true, Option.some.injEq, List.cons.injEq, and_true]
    refine ⟨Fin.ext ?_, Fin.ext ?_⟩ <;> simp only [toByte] <;> omega
  | case4 a b c rest ih =>
    have ha := a.isLt
    have hb := b.isLt
    have hc := c.isLt
    simp only [b64Encode, decodeQuanta,
      decChar_encChar _ (Nat.mod_lt _ (by decide : 0 < 64)), ih]
    simp only [Option.some.injEq, List.cons.injEq, and_true]
    refine ⟨Fin.ext ?_, Fin.ext ?_, Fin.ext ?_⟩ <;> simp only [toByte] <;> omega

theorem getContent_roundtrip (buf : List Byte) (laddr raddr : Option UDPAddr) :
    GetContent (NewUdpPacket buf laddr raddr) = .ok buf := by
  simp only [GetContent, NewUdpPacket, DecodeString, EncodeToString, b64Decode,
    filter_b64Encode, decodeQuanta_b64Encode]

/-- C1: `GetContent (NewUdpPacket buf laddr raddr)` is `buf` with a nil error, for every byte
slice `buf`, the empty one included, and every pair of addresses. -/
theorem GetContent_NewUdpPacket (buf : List Byte) (laddr raddr : Option UDPAddr) :
    GetContent (NewUdpPacket buf laddr raddr) = .ok buf ∧
      GetContent (NewUdpPacket [] laddr raddr) = .ok [] :=
  ⟨getContent_roundtrip buf laddr raddr, getContent_roundtrip [] laddr raddr⟩

/-! ### `ForwardUserConn` -/

theorem readFromUDP_length (buf d : List Byte) :
    (ReadFromUDP buf d).2.length = buf.length := by
  simp only [ReadFromUDP, List.length_append, List.length_take, List.length_drop]
  omega

theorem readFromUDP_take (buf d : List Byte) :
    (ReadFromUDP buf d).2.take (ReadFromUDP buf d).1 = d.take (min d.length buf.length) := by
  simp only [ReadFromUDP]
  rw [List.take_append_of_le_length (by simp), List.take_take]
  simp

theorem getBuf_length (size : Nat) (recycled : List Byte) :
    (GetBuf size recycled).length = size := by
  unfold GetBuf
  split
  · simp
  · simp only [List.length_take]; omega

/-- The loop on datagrams followed by a read error, with `sendCh` open: it builds one packet
per datagram, in order, each carrying the datagram cut to the length of the buffer; it
enqueues them onto `sendCh` as long as there is room and drops the others; it returns on the
error after closing the socket. -/
theorem forwardLoop_datagrams (ds : List (List Byte × UDPAddr)) (st : FwdState)
    (hopen : st.sendCh.closed = false) :
    (forwardLoop (datagramReads ds) st).built = st.built ++
      ds.map (fun x => NewUdpPacket (x.1.take (min x.1.length st.buf.length)) none
        (some x.2)) ∧
    (forwardLoop (datagramReads ds) st).sendCh.buf = st.sendCh.buf ++
      (ds.map (fun x => NewUdpPacket (x.1.take (min x.1.length st.buf.length)) none
        (some x.2))).take (st.sendCh.cap - st.sendCh.buf.length) ∧
    (forwardLoop (datagramReads ds) st).status = GoStatus.returned ∧
    (forwardLoop (datagramReads ds) st).udpConnClosed = true := by
  induction ds generalizing st with
  | nil => simp [datagramReads, forwardLoop]
  | cons x ds ih =>
    obtain ⟨d, raddr⟩ := x
    have hcons : datagramReads ((d, raddr) :: ds) = UdpRead.datagram d raddr :: datagramReads ds
      := rfl
    rw [hcons]
    simp only [forwardLoop, readFromUDP_take, Chan.trySend, hopen, Bool.false_eq_true, if_false]
    generalize hm : NewUdpPacket (d.take (min d.length st.buf.length)) none (some raddr) = m
    have hlen := readFromUDP_length st.buf d
    generalize (ReadFromUDP st.buf d).2 = buf1 at hlen ⊢
    by_cases hroom : st.sendCh.buf.length < st.sendCh.cap
    · simp only [hroom, if_true]
      obtain ⟨h1, h2, h3, h4⟩ := ih
        ⟨buf1, ⟨st.sendCh.cap, st.sendCh.buf ++ [m], false⟩, st.built ++ [m],
          st.udpConnClosed, st.status⟩ rfl
      simp only at h1 h2
      refine ⟨?_, ?_, h3, h4⟩
      · rw [h1]; simp only [hlen, List.map_cons, hm, List.append_assoc, List.singleton_append]
      · rw [h2]
        simp only [hlen, List.map_cons, hm, List.append_assoc, List.singleton_append,
          List.length_append, List.length_singleton]
        have hk : st.sendCh.cap - st.sendCh.buf.length
            = (st.sendCh.cap - (st.sendCh.buf.length + 1)) + 1 := by omega
        rw [hk, List.take_succ_cons]
    · simp only [hroom, if_false]
      obtain ⟨h1, h2, h3, h4⟩ := ih ⟨buf1, st.sendCh, st.built ++ [m], st.udpConnClosed,
        st.status⟩ hopen
      simp only at h1 h2
      refine ⟨?_, ?_, h3, h4⟩
      · rw [h1]; simp only [hlen, List.map_cons, hm, List.append_assoc, List.singleton_append]
      · rw [h2]
        have hk : st.sendCh.cap - st.sendCh.buf.length = 0 := by omega
        simp only [hk, List.take_zero]

/-- C5: when the datagrams `ds` are received on the public socket (with `sendCh` open),
`ForwardUserConn` builds exactly one `UdpPacket` per datagram, in order, with the source
address as `RemoteAddr`; the packet of datagram `d` decodes (`GetContent`) to the first
`min (len d) 1500` bytes of `d`: to `d` itself when `d` has at most 1500 bytes, to its first
1500 bytes when it has 1501 or more. These packets are what the loop enqueues onto `sendCh`
while there is room. -/
theorem ForwardUserConn_packet_content (recycled : List Byte) (sendCh : Chan UdpPacket)
    (ds : List (List Byte × UDPAddr)) (hopen : sendCh.closed = false) :
    (ForwardUserConn recycled sendCh (datagramReads ds)).built.length = ds.length ∧
    (ForwardUserConn recycled sendCh (datagramReads ds)).built.map GetContent
      = ds.map (fun x => Except.ok (x.1.take (min x.1.length 1500))) ∧
    (ForwardUserConn recycled sendCh (datagramReads ds)).built.map (fun p => p.RemoteAddr)
      = ds.map (fun x => some x.2) ∧
    (∀ (i : Nat) (d : List Byte) (raddr : UDPAddr), ds[i]? = some (d, raddr) →
      ∃ p, (ForwardUserConn recycled sendCh (datagramReads ds)).built[i]? = some p ∧
        (d.length ≤ 1500 → GetContent p = .ok d) ∧
        (1501 ≤ d.length → GetContent p = .ok (d.take 1500) ∧ (d.take 1500).length = 1500)) ∧
    (ForwardUserConn recycled sendCh (datagramReads ds)).sendCh.buf
      = sendCh.buf ++ (ForwardUserConn recycled sendCh (datagramReads ds)).built.take
          (sendCh.cap - sendCh.buf.length) ∧
    (ForwardUserConn recycled sendCh (datagramReads ds)).status = GoStatus.returned := by
  obtain ⟨h1, h2, h3, _⟩ := forwardLoop_datagrams ds
    { buf := GetBuf 1500 recycled, sendCh := sendCh, built := [], udpConnClosed := false,
      status := .running } hopen
  simp only [getBuf_length, List.nil_append] at h1 h2
  unfold ForwardUserConn
  rw [h1, h2, h3]
  refine ⟨by simp, ?_, by simp [NewUdpPacket], ?_, rfl, rfl⟩
  · simp only [List.map_map]
    apply List.map_congr_left
    intro x _
    exact getContent_roundtrip _ _ _
  · intro i d raddr hi
    refine ⟨NewUdpPacket (d.take (min d.length 1500)) none (some raddr), ?_, ?_, ?_⟩
    · simp [List.getElem?_map, hi]
    · intro hle
      rw [getContent_roundtrip, Nat.min_eq_left hle, List.take_length]
    · intro hge
      rw [getContent_roundtrip, Nat.min_eq_right (by omega)]
      exact ⟨rfl, by rw [List.length_take]; omega⟩

theorem ForwardUserConn_packet_content_witness :
    (ForwardUserConn [] (makeChan UdpPacket 1024) (datagramReads sampleDatagrams)).built.map
        GetContent
      = [Except.ok (List.replicate 1500 7), Except.ok (List.replicate 1500 9)] ∧
    (ForwardUserConn [] (makeChan UdpPacket 1024) (datagramReads sampleDatagrams)).sendCh.buf
      = (ForwardUserConn [] (makeChan UdpPacket 1024) (datagramReads sampleDatagrams)).built ∧
    (ForwardUserConn [] (makeChan UdpPacket 1024) (datagramReads sampleDatagrams)).built.length
      = 2 :=
  have h := ForwardUserConn_packet_content [] (makeChan UdpPacket 1024) sampleDatagrams rfl
  ⟨h.2.1.trans (by
      simp only [sampleDatagrams, List.map_cons, List.map_nil, List.length_replicate,
        List.take_replicate]
      rfl),
   h.2.2.2.2.1.trans (by
      have hl := h.1
      have : (makeChan UdpPacket 1024).cap - (makeChan UdpPacket 1024).buf.length = 1024 := rfl
      rw [this, List.take_of_length_le (by rw [hl]; decide)]
      rfl),
   h.1⟩

/-! ### `UdpProxy.Close` -/

/-- C2, as stated, fails: over two calls of `Close` on a running proxy the port is released
twice, not once. -/
theorem Close_twice_releases_twice :
    runningPxy.isRunning = true ∧
    runningPxy.closeTwiceEvents.count (Event.release runningPxy.realPort) = 2 ∧
    ¬ runningPxy.closeTwiceEvents.count (Event.release runningPxy.realPort) = 1 := by
  decide

theorem chanOpen_some {α : Type} {c : Option (Chan α)} (h : chanOpen c = true) :
    ∃ ch, c = some ch ∧ ch.closed = false := by
  cases c with
  | none => simp [chanOpen] at h
  | some ch => exact ⟨ch, rfl, by simpa [chanOpen] using h⟩

/-- The result of `Run`, by the answers of the world. -/
theorem Run_acquire_error (env : RunEnv) (pxy : UdpProxy) (port : Int) (e : String)
    (ha : env.Acquire pxy.name pxy.RemotePort = (port, some e)) :
    UdpProxy.Run env pxy =
      { remoteAddr := "", err := some e, pxy := { pxy with realPort := port }, events := [] } := by
  simp only [UdpProxy.Run, ha]

theorem Run_resolve_error (env : RunEnv) (pxy : UdpProxy) (port : Int) (e : String)
    (ha : env.Acquire pxy.name pxy.RemotePort = (port, none))
    (hr : env.ResolveUDPAddr (env.ProxyBindAddr ++ ":" ++ toString port) = .error e) :
    UdpProxy.Run env pxy =
      { remoteAddr := ":" ++ toString port, err := some e,
        pxy := { pxy with realPort := port, RemotePort := port },
        events := [Event.release port] } := by
  simp only [UdpProxy.Run, ha, hr, UdpProxy.runDeferred, List.nil_append]

theorem Run_listen_error (env : RunEnv) (pxy : UdpProxy) (port : Int) (addr : UDPAddr)
    (e : String) (ha : env.Acquire pxy.name pxy.RemotePort = (port, none))
    (hr : env.ResolveUDPAddr (env.ProxyBindAddr ++ ":" ++ toString port) = .ok addr)
    (hl : env.ListenUDP addr = .error e) :
    UdpProxy.Run env pxy =
      { remoteAddr := ":" ++ toString port, err := some e,
        pxy := { pxy with realPort := port, RemotePort := port },
        events := [Event.release port] } := by
  simp only [UdpProxy.Run, ha, hr, hl, UdpProxy.runDeferred, List.nil_append]

theorem Run_ok (env : RunEnv) (pxy : UdpProxy) (port : Int) (addr : UDPAddr) (u : Conn)
    (ha : env.Acquire pxy.name pxy.RemotePort = (port, none))
    (hr : env.ResolveUDPAddr (env.ProxyBindAddr ++ ":" ++ toString port) = .ok addr)
    (hl : env.ListenUDP addr = .ok u) :
    UdpProxy.Run env pxy =
      { remoteAddr := ":" ++ toString port, err := none,
        pxy := { pxy with realPort := port, RemotePort := port, udpConn := some u,
                          sendCh := some (makeChan UdpPacket 1024),
                          readCh := some (makeChan UdpPacket 1024),
                          checkCloseCh := some (makeChan Int 0) },
        events := [Event.goSupervisor, Event.goForwardUserConn] } := by
  simp only [UdpProxy.Run, ha, hr, hl, UdpProxy.runDeferred]

/-- A successful `Run` of a proxy that is not closed leaves it running. -/
theorem Run_ok_isRunning (env : RunEnv) (pxy : UdpProxy) (hc : pxy.isClosed = false)
    (h : (UdpProxy.Run env pxy).err = none) : (UdpProxy.Run env pxy).pxy.isRunning = true := by
  rcases ha : env.Acquire pxy.name pxy.RemotePort with ⟨port, _ | e⟩
  · cases hr : env.ResolveUDPAddr (env.ProxyBindAddr ++ ":" ++ toString port) with
    | error e => rw [Run_resolve_error env pxy port e ha hr] at h; simp at h
    | ok addr =>
      cases hl : env.ListenUDP addr with
      | error e => rw [Run_listen_error env pxy port addr e ha hr hl] at h; simp at h
      | ok u =>
        rw [Run_ok env pxy port addr u ha hr hl]
        simp [UdpProxy.isRunning, chanOpen, makeChan, hc]
  · rw [Run_acquire_error env pxy port e ha] at h; simp at h

/-- `Close` on a proxy that is already closed only releases the port. -/
theorem Close_of_isClosed (pxy : UdpProxy) (h : pxy.isClosed = true) :
    pxy.Close = { pxy := pxy, events := [Event.release pxy.realPort], panic := none } := by
  simp [UdpProxy.Close, h]

/-- `Close` on a running proxy, in full. -/
theorem Close_of_isRunning (pxy : UdpProxy) (h : pxy.isRunning = true) :
    ∃ (u : Conn) (cc : Chan Int) (rc sc : Chan UdpPacket), pxy.udpConn = some u ∧
      pxy.Close =
        { pxy := { pxy with isClosed := true
                            workConn := pxy.workConn.map (fun w => { w with closed := true })
                            udpConn := some { u with closed := true }
                            checkCloseCh := some { cc with closed := true }
                            readCh := some { rc with closed := true }
                            sendCh := some { sc with closed := true } },
          events := [Event.setIsClosed] ++ BaseProxy.Close pxy.listeners
            ++ (pxy.workConn.toList.map (fun w => Event.closeWorkConn w.id))
            ++ [Event.closeUdpConn u.id, Event.closeCheckCloseCh, Event.closeReadCh,
                Event.closeSendCh, Event.release pxy.realPort],
          panic := none } := by
  obtain ⟨name, listeners, RemotePort, realPort, udpConn, workConn, sendCh, readCh,
    checkCloseCh, isClosed⟩ := pxy
  simp only [UdpProxy.isRunning, Bool.and_eq_true, Bool.not_eq_true', Option.isSome_iff_exists]
    at h
  obtain ⟨⟨⟨⟨hcl, u, hu⟩, hc⟩, hr⟩, hs⟩ := h
  obtain ⟨⟨ccap, cbuf, ccl⟩, rfl, hcc⟩ := chanOpen_some hc
  obtain ⟨⟨rcap, rbuf, rcl⟩, rfl, hrc⟩ := chanOpen_some hr
  obtain ⟨⟨scap, sbuf, scl⟩, rfl, hsc⟩ := chanOpen_some hs
  simp only at hcc hrc hsc
  subst hcl hu hcc hrc hsc
  refine ⟨u, ⟨ccap, cbuf, false⟩, ⟨rcap, rbuf, false⟩, ⟨scap, sbuf, false⟩, rfl, ?_⟩
  cases workConn with
  | none => simp [UdpProxy.Close, closeChan]
  | some w => simp [UdpProxy.Close, closeChan]

/-- C2 (amended): on a proxy that has run successfully, a second `Close` changes nothing in
the proxy and closes nothing: over the two calls the listeners, the work conn (if one is
installed) and the UDP socket are closed once, `checkCloseCh`, `readCh` and `sendCh` are
each closed exactly once, and no call panics; but `UdpPortManager.Release(realPort)` is
issued by each call, twice in all. -/
theorem Close_twice (pxy : UdpProxy) (h : pxy.isRunning = true) :
    pxy.Close.pxy.Close.pxy = pxy.Close.pxy ∧
    pxy.Close.panic = none ∧ pxy.Close.pxy.Close.panic = none ∧
    pxy.Close.pxy.isClosed = true ∧
    pxy.Close.pxy.Close.events = [Event.release pxy.realPort] ∧
    pxy.closeTwiceEvents.count Event.closeCheckCloseCh = 1 ∧
    pxy.closeTwiceEvents.count Event.closeReadCh = 1 ∧
    pxy.closeTwiceEvents.count Event.closeSendCh = 1 ∧
    (∀ u, pxy.udpConn = some u → pxy.closeTwiceEvents.count (Event.closeUdpConn u.id) = 1) ∧
    (∀ w, pxy.workConn = some w → pxy.closeTwiceEvents.count (Event.closeWorkConn w.id) = 1) ∧
    (∀ l, pxy.closeTwiceEvents.count (Event.closeListener l) = pxy.listeners.count l) ∧
    pxy.closeTwiceEvents.count (Event.release pxy.realPort) = 2 := by
  obtain ⟨u, cc, rc, sc, hu, h1⟩ := Close_of_isRunning pxy h
  have hcount : ∀ l, (List.map Event.closeListener pxy.listeners).count (Event.closeListener l)
      = pxy.listeners.count l := fun l =>
    List.count_map_of_injective _ _ (fun a b hab => by injection hab) l
  have hz : ∀ e, (∀ l, e ≠ Event.closeListener l) →
      (List.map Event.closeListener pxy.listeners).count e = 0 := fun e he =>
    List.count_eq_zero.mpr (fun hmem => by
      obtain ⟨l, _, hl⟩ := List.mem_map.mp hmem
      exact he l hl.symm)
  have h2 := Close_of_isClosed pxy.Close.pxy (by rw [h1])
  unfold UdpProxy.closeTwiceEvents
  rw [h2]
  rw [h1]
  cases hw : pxy.workConn with
  | none =>
    simp [BaseProxy.Close, List.count_cons, List.count_append, hcount, hu, hz]
  | some w =>
    simp [BaseProxy.Close, List.count_cons, List.count_append, hcount, hu, hz]

theorem Close_twice_witness :
    runningPxy.Close.pxy.Close.pxy = runningPxy.Close.pxy ∧
    runningPxy.Close.pxy.Close.events = [Event.release 6000] ∧
    runningPxy.closeTwiceEvents.count Event.closeSendCh = 1 ∧
    runningPxy.closeTwiceEvents.count (Event.release 6000) = 2 :=
  have h := Close_twice runningPxy (by decide)
  ⟨h.1, h.2.2.2.2.1, h.2.2.2.2.2.2.2.1, h.2.2.2.2.2.2.2.2.2.2.2⟩

/-! ### `UdpProxy.Run` -/

/-- C3: if `Acquire` fails, `Run` returns its error and releases nothing; if `Acquire` gives
port `p` and resolving the bind address or listening on the socket fails, `Run` returns that
error after exactly one `Release(p)` (and no other release); if every step succeeds, `Run`
releases nothing and returns the advertised address `":p"` with a nil error. -/
theorem Run_release (env : RunEnv) (pxy : UdpProxy) (p : Int) :
    (∀ e, env.Acquire pxy.name pxy.RemotePort = (p, some e) →
      (UdpProxy.Run env pxy).err = some e ∧
      ∀ q, Event.release q ∉ (UdpProxy.Run env pxy).events) ∧
    (∀ e, env.Acquire pxy.name pxy.RemotePort = (p, none) →
      (env.ResolveUDPAddr (env.ProxyBindAddr ++ ":" ++ toString p) = .error e ∨
        ∃ addr, env.ResolveUDPAddr (env.ProxyBindAddr ++ ":" ++ toString p) = .ok addr ∧
          env.ListenUDP addr = .error e) →
      (UdpProxy.Run env pxy).err = some e ∧
      (UdpProxy.Run env pxy).events.count (Event.release p) = 1 ∧
      ∀ q, Event.release q ∈ (UdpProxy.Run env pxy).events → q = p) ∧
    (∀ addr u, env.Acquire pxy.name pxy.RemotePort = (p, none) →
      env.ResolveUDPAddr (env.ProxyBindAddr ++ ":" ++ toString p) = .ok addr →
      env.ListenUDP addr = .ok u →
      (UdpProxy.Run env pxy).err = none ∧
      (UdpProxy.Run env pxy).remoteAddr = ":" ++ toString p ∧
      (UdpProxy.Run env pxy).pxy.realPort = p ∧
      ∀ q, Event.release q ∉ (UdpProxy.Run env pxy).events) := by
  refine ⟨?_, ?_, ?_⟩
  · intro e ha
    rw [Run_acquire_error env pxy p e ha]
    simp
  · intro e ha hfail
    rcases hfail with hr | ⟨addr, hr, hl⟩
    · rw [Run_resolve_error env pxy p e ha hr]
      simp
    · rw [Run_listen_error env pxy p addr e ha hr hl]
      simp
  · intro addr u ha hr hl
    rw [Run_ok env pxy p addr u ha hr hl]
    simp

theorem Run_release_witness :
    ((UdpProxy.Run envAcquireFails samplePxy).err = some "port already used" ∧
      ∀ q, Event.release q ∉ (UdpProxy.Run envAcquireFails samplePxy).events) ∧
    ((UdpProxy.Run envResolveFails samplePxy).err = some "no such host" ∧
      (UdpProxy.Run envResolveFails samplePxy).events.count (Event.release 6000) = 1 ∧
      ∀ q, Event.release q ∈ (UdpProxy.Run envResolveFails samplePxy).events → q = 6000) ∧
    ((UdpProxy.Run envListenFails samplePxy).err = some "address in use" ∧
      (UdpProxy.Run envListenFails samplePxy).events.count (Event.release 6000) = 1 ∧
      ∀ q, Event.release q ∈ (UdpProxy.Run envListenFails samplePxy).events → q = 6000) ∧
    ((UdpProxy.Run envOk samplePxy).err = none ∧
      (UdpProxy.Run envOk samplePxy).remoteAddr = ":" ++ toString (6000 : Int) ∧
      (UdpProxy.Run envOk samplePxy).pxy.realPort = 6000 ∧
      ∀ q, Event.release q ∉ (UdpProxy.Run envOk samplePxy).events) :=
  ⟨(Run_release envAcquireFails samplePxy 0).1 "port already used" rfl,
   (Run_release envResolveFails samplePxy 6000).2.1 "no such host" rfl (Or.inl rfl),
   (Run_release envListenFails samplePxy 6000).2.1 "address in use" rfl
     (Or.inr ⟨{ IP := [0, 0, 0, 0], Port := 6000, Zone := "" }, rfl, rfl⟩),
   (Run_release envOk samplePxy 6000).2.2 { IP := [0, 0, 0, 0], Port := 6000, Zone := "" }
     { id := 1, closed := false } rfl rfl rfl⟩

/-! ### Enqueueing onto a full channel -/

theorem fullChan_length : fullChan.buf.length = fullChan.cap :=
  List.length_replicate 1024 samplePacket

/-- The reader in front of an open, full `readCh`. -/
theorem workConnReaderFn_full (name : String) (rs : ReaderState) (m : UdpPacket)
    (rest : List ConnRead) (hr : rs.readCh.closed = false)
    (hrf : rs.readCh.buf.length = rs.readCh.cap) :
    workConnReaderFn name (.msg (.UdpPacket m) :: rest) rs =
      { rs with parked := some m, status := .blockedOnSend } := by
  simp [workConnReaderFn, Chan.send, hr, hrf]

/-- C4, as stated, fails for `readCh`: with `readCh` open and holding its 1024 packets, the
work-conn reader that reads one more `UdpPacket` is parked in `pxy.readCh <- m`, holding the
packet; it has not dropped it and it does not go on. -/
theorem reader_blocks_on_full_readCh :
    fullReaderState.readCh.buf.length = 1024 ∧ fullReaderState.readCh.cap = 1024 ∧
    (workConnReaderFn "dns" [ConnRead.msg (Message.UdpPacket samplePacket), ConnRead.error]
        fullReaderState).status = GoStatus.blockedOnSend ∧
    (workConnReaderFn "dns" [ConnRead.msg (Message.UdpPacket samplePacket), ConnRead.error]
        fullReaderState).parked = some samplePacket ∧
    (workConnReaderFn "dns" [ConnRead.msg (Message.UdpPacket samplePacket), ConnRead.error]
        fullReaderState).status ≠ GoStatus.running := by
  rw [workConnReaderFn_full "dns" fullReaderState samplePacket [ConnRead.error] rfl
    fullChan_length]
  exact ⟨fullChan_length, rfl, rfl, rfl, by decide⟩

/-- C4 (amended): with `sendCh` open and full, the datagram loop of `ForwardUserConn` drops
the packet it has built, leaves `sendCh` as it is and goes on with the next read. With
`readCh` open and full, the work-conn reader does not drop: it parks in the blocking send
`pxy.readCh <- m`, holding the packet, with `readCh` as it is, no traffic counted and the
conn left open, until a receiver makes room. -/
theorem full_channel_enqueue (name : String) (st : FwdState) (d : List Byte) (raddr : UDPAddr)
    (rest : List UdpRead) (rs : ReaderState) (m : UdpPacket) (rest' : List ConnRead)
    (hs : st.sendCh.closed = false) (hsf : st.sendCh.buf.length = st.sendCh.cap)
    (hr : rs.readCh.closed = false) (hrf : rs.readCh.buf.length = rs.readCh.cap) :
    forwardLoop (.datagram d raddr :: rest) st =
      forwardLoop rest
        { st with buf := (ReadFromUDP st.buf d).2
                  built := st.built ++
                    [NewUdpPacket ((ReadFromUDP st.buf d).2.take (ReadFromUDP st.buf d).1) none
                      (some raddr)] } ∧
    (forwardLoop [.datagram d raddr] st).sendCh = st.sendCh ∧
    (forwardLoop [.datagram d raddr] st).status = st.status ∧
    workConnReaderFn name (.msg (.UdpPacket m) :: rest') rs =
      { rs with parked := some m, status := .blockedOnSend } := by
  have htry : ∀ m', st.sendCh.trySend m' = SendOutcome.dropped := fun m' => by
    simp [Chan.trySend, hs, hsf]
  refine ⟨?_, ?_, ?_, workConnReaderFn_full name rs m rest' hr hrf⟩
  · simp only [forwardLoop, htry]
  · simp only [forwardLoop, htry]
  · simp only [forwardLoop, htry]

theorem full_channel_enqueue_witness :
    forwardLoop [.datagram [1, 2, 3] sampleAddr, .error] fullFwdState =
      forwardLoop [.error]
        { fullFwdState with
            buf := (ReadFromUDP fullFwdState.buf [1, 2, 3]).2
            built := fullFwdState.built ++
              [NewUdpPacket ((ReadFromUDP fullFwdState.buf [1, 2, 3]).2.take
                (ReadFromUDP fullFwdState.buf [1, 2, 3]).1) none (some sampleAddr)] } ∧
    (forwardLoop [.datagram [1, 2, 3] sampleAddr] fullFwdState).sendCh = fullChan ∧
    (forwardLoop [.datagram [1, 2, 3] sampleAddr] fullFwdState).status = GoStatus.running ∧
    workConnReaderFn "dns" [.msg (.UdpPacket samplePacket)] fullReaderState =
      { fullReaderState with parked := some samplePacket, status := .blockedOnSend } :=
  full_channel_enqueue "dns" fullFwdState [1, 2, 3] sampleAddr [.error] fullReaderState
    samplePacket [] rfl fullChan_length rfl fullChan_length

/-! ### `VisitorManager.Reload` -/

theorem GoMap.get_cons {V : Type} (k k' : String) (v : V) (m : GoMap V) :
    GoMap.get ((k', v) :: m) k = if k' = k then some v else GoMap.get m k := by
  by_cases h : k' = k <;> simp [GoMap.get, List.find?_cons, h]

theorem GoMap.get_nil {V : Type} (k : String) : GoMap.get ([] : GoMap V) k = none := rfl

theorem GoMap.get_isSome_of_mem {V : Type} (m : GoMap V) (k : String) (v : V)
    (h : (k, v) ∈ m) : (GoMap.get m k).isSome = true := by
  induction m with
  | nil => simp at h
  | cons p m ih =>
    obtain ⟨k', v'⟩ := p
    rw [GoMap.get_cons]
    by_cases hk : k' = k
    · simp [hk]
    · simp only [hk, if_false]
      rcases List.mem_cons.mp h with h | h
      · exact absurd (Prod.mk.inj h).1.symm hk
      · exact ih h

theorem GoMap.mem_of_get {V : Type} (m : GoMap V) (k : String) (v : V)
    (h : GoMap.get m k = some v) : (k, v) ∈ m := by
  induction m with
  | nil => simp [GoMap.get_nil] at h
  | cons p m ih =>
    obtain ⟨k', v'⟩ := p
    rw [GoMap.get_cons] at h
    by_cases hk : k' = k
    · simp only [hk, if_true, Option.some.injEq] at h
      simp [hk, h]
    · simp only [hk, if_false] at h
      exact List.mem_cons_of_mem _ (ih h)

theorem GoMap.get_of_mem_nodup {V : Type} (m : GoMap V) (k : String) (v : V)
    (hnd : (m.map Prod.fst).Nodup) (h : (k, v) ∈ m) : GoMap.get m k = some v := by
  induction m with
  | nil => simp at h
  | cons p m ih =>
    obtain ⟨k', v'⟩ := p
    rw [GoMap.get_cons]
    simp only [List.map_cons, List.nodup_cons] at hnd
    rcases List.mem_cons.mp h with h | h
    · obtain ⟨rfl, rfl⟩ := Prod.mk.inj h
      simp
    · have hne : k' ≠ k := by
        rintro rfl
        exact hnd.1 (List.mem_map.mpr ⟨(k', v), h, rfl⟩)
      simp only [hne, if_false]
      exact ih hnd.2 h

theorem removeLoop_noop {C : Type} (ops : ConfOps C) (cfgs : GoMap C) (l : List (String × C))
    (vm : VisitorManager C) (h : ∀ p ∈ l, Reload.del ops cfgs p.1 p.2 = false) :
    Reload.removeLoop ops cfgs l vm = vm := by
  induction l with
  | nil => rfl
  | cons p l ih =>
    obtain ⟨name, oldCfg⟩ := p
    have hp : Reload.del ops cfgs name oldCfg = false := h (name, oldCfg) (List.mem_cons_self _ _)
    simp only [Reload.removeLoop, hp, Bool.false_eq_true, if_false]
    exact ih (fun q hq => h q (List.mem_cons_of_mem _ hq))

theorem addLoop_noop {C : Type} (ops : ConfOps C) (Run : List (VEvent C) → C → Bool)
    (l : List (String × C)) (vm : VisitorManager C)
    (h : ∀ p ∈ l, (vm.cfgs.get p.1).isSome = true) : Reload.addLoop ops Run l vm = vm := by
  induction l with
  | nil => rfl
  | cons p l ih =>
    obtain ⟨name, cfg⟩ := p
    have hp := h (name, cfg) (List.mem_cons_self _ _)
    obtain ⟨c, hc⟩ := Option.isSome_iff_exists.mp hp
    simp only [Reload.addLoop, hc]
    exact ih (fun q hq => h q (List.mem_cons_of_mem _ hq))

/-- C6: if the new config map has the keys of `vm.cfgs` (a map: its keys are distinct) and
every old config compares equal (`Compare`) to the new one under its name, `Reload` is a
no-op: no visitor is closed, none is created or run (the events are unchanged), and `vm.cfgs`
and `vm.visitors` are unchanged. -/
theorem Reload_identical {C : Type} (ops : ConfOps C) (Run : List (VEvent C) → C → Bool)
    (vm : VisitorManager C) (cfgs : GoMap C)
    (hnd : (vm.cfgs.map Prod.fst).Nodup)
    (hkeys : ∀ name, (vm.cfgs.get name).isSome = (cfgs.get name).isSome)
    (hcmp : ∀ name oldCfg cfg, vm.cfgs.get name = some oldCfg → cfgs.get name = some cfg →
      ops.Compare oldCfg cfg = true) :
    VisitorManager.Reload ops Run vm cfgs = vm := by
  unfold VisitorManager.Reload
  rw [removeLoop_noop ops cfgs vm.cfgs vm]
  · apply addLoop_noop
    intro p hp
    rw [hkeys]
    exact GoMap.get_isSome_of_mem cfgs p.1 p.2 hp
  · intro p hp
    have hget := GoMap.get_of_mem_nodup vm.cfgs p.1 p.2 hnd hp
    have hs : (cfgs.get p.1).isSome = true := by rw [← hkeys, hget]; rfl
    obtain ⟨cfg, hcfg⟩ := Option.isSome_iff_exists.mp hs
    simp [Reload.del, hcfg, hcmp p.1 p.2 cfg hget hcfg]

theorem Reload_identical_witness :
    VisitorManager.Reload sampleOps (fun _ _ => true) sampleVm
      [("b", ⟨"b", "srvB", 9001⟩), ("a", ⟨"a", "srvA", 9000⟩)] = sampleVm :=
  Reload_identical sampleOps (fun _ _ => true) sampleVm
    [("b", ⟨"b", "srvB", 9001⟩), ("a", ⟨"a", "srvA", 9000⟩)] (by decide)
    (by
      intro name
      by_cases ha : "a" = name
      · subst ha; decide
      · by_cases hb : "b" = name
        · subst hb; decide
        · simp [sampleVm, GoMap.get_cons, GoMap.get_nil, ha, hb])
    (by
      intro name oldCfg cfg h1 h2
      by_cases ha : "a" = name
      · subst ha
        simp only [sampleVm, GoMap.get_cons, if_true, Option.some.injEq] at h1
        simp [GoMap.get_cons] at h2
        subst h1 h2
        decide
      · by_cases hb : "b" = name
        · subst hb
          simp [sampleVm, GoMap.get_cons] at h1
          simp [GoMap.get_cons] at h2
          subst h1 h2
          decide
        · simp [sampleVm, GoMap.get_cons, GoMap.get_nil, ha, hb] at h1)

theorem GoMap.get_delete {V : Type} (m : GoMap V) (k k' : String) :
    GoMap.get (GoMap.delete m k) k' = if k = k' then none else GoMap.get m k' := by
  induction m with
  | nil => simp [GoMap.delete, GoMap.get_nil]
  | cons p m ih =>
    obtain ⟨a, v⟩ := p
    by_cases hak : a = k
    · subst hak
      have : GoMap.delete ((a, v) :: m) a = GoMap.delete m a := by simp [GoMap.delete]
      rw [this, ih, GoMap.get_cons]
      by_cases h : a = k' <;> simp [h]
    · have : GoMap.delete ((a, v) :: m) k = (a, v) :: GoMap.delete m k := by
        simp [GoMap.delete, hak]
      rw [this, GoMap.get_cons, GoMap.get_cons, ih]
      by_cases hak' : a = k'
      · have : ¬ k = k' := fun h => hak (hak'.trans h.symm)
        simp [hak', this]
      · simp [hak']

theorem GoMap.get_append {V : Type} (m m' : GoMap V) (k : String) :
    GoMap.get (m ++ m') k = match GoMap.get m k with
      | some v => some v
      | none => GoMap.get m' k := by
  induction m with
  | nil => simp [GoMap.get_nil]
  | cons p m ih =>
    obtain ⟨a, v⟩ := p
    rw [List.cons_append, GoMap.get_cons, GoMap.get_cons, ih]
    by_cases h : a = k <;> simp [h]

theorem GoMap.get_map_set {V : Type} (m : GoMap V) (k k' : String) (v : V) :
    GoMap.get (m.map (fun p => if p.1 == k then (k, v) else p)) k' =
      if k = k' then (GoMap.get m k).map (fun _ => v) else GoMap.get m k' := by
  induction m with
  | nil => simp [GoMap.get_nil]
  | cons p m ih =>
    obtain ⟨a, w⟩ := p
    rw [List.map_cons]
    by_cases hak : a = k
    · subst hak
      simp only [beq_self_eq_true, if_true]
      rw [GoMap.get_cons, GoMap.get_cons]
      by_cases h : a = k'
      · simp [h]
      · simp only [h, if_false]
        rw [ih]; simp [h, GoMap.get_cons]
    · have hb : (a == k) = false := by simpa using hak
      simp only [hb, Bool.false_eq_true, if_false]
      rw [GoMap.get_cons, GoMap.get_cons, GoMap.get_cons, ih]
      by_cases h : a = k'
      · have : ¬ k = k' := fun h' => hak (h.trans h'.symm)
        simp [h, this]
      · simp [h, hak]

theorem GoMap.get_set {V : Type} (m : GoMap V) (k k' : String) (v : V) :
    GoMap.get (GoMap.set m k v) k' = if k = k' then some v else GoMap.get m k' := by
  unfold GoMap.set
  cases hg : GoMap.get m k with
  | some w =>
    simp only [Option.isSome_some, if_true]
    rw [GoMap.get_map_set, hg]
    rfl
  | none =>
    simp only [Option.isSome_none, Bool.false_eq_true, if_false]
    rw [GoMap.get_append, GoMap.get_cons, GoMap.get_nil]
    by_cases h : k = k'
    · subst h; simp [hg]
    · simp only [h, if_false]
      cases GoMap.get m k' <;> rfl

/-- The removal pass only closes visitors, and it closes the visitor of every entry it
deletes. -/
theorem removeLoop_trace {C : Type} (ops : ConfOps C) (cfgs : GoMap C)
    (l : List (String × C)) (vm : VisitorManager C) :
    ∃ closes, (Reload.removeLoop ops cfgs l vm).trace = vm.trace ++ closes ∧
      (∀ e ∈ closes, e.isClose = true) ∧
      ∀ name oldCfg v, (name, oldCfg) ∈ l → Reload.del ops cfgs name oldCfg = true →
        vm.visitors.get name = some v → VEvent.close name v ∈ closes := by
  induction l generalizing vm with
  | nil => exact ⟨[], by simp [Reload.removeLoop], by simp, by simp⟩
  | cons p l ih =>
    obtain ⟨name0, old0⟩ := p
    by_cases hd : Reload.del ops cfgs name0 old0 = true
    · simp only [Reload.removeLoop, hd, if_true]
      cases hv : vm.visitors.get name0 with
      | none =>
        obtain ⟨closes, ht, hc, hm⟩ := ih
          { cfgs := vm.cfgs.delete name0, visitors := vm.visitors.delete name0,
            trace := vm.trace }
        refine ⟨closes, ht, hc, ?_⟩
        intro name oldCfg v hmem hdel hget
        have hne : ¬ name0 = name := by
          rintro rfl
          rw [hv] at hget
          exact Option.noConfusion hget
        rcases List.mem_cons.mp hmem with h | h
        · exact absurd (Prod.mk.inj h).1.symm hne
        · exact hm name oldCfg v h hdel (by simp [GoMap.get_delete, hne, hget])
      | some v0 =>
        obtain ⟨closes, ht, hc, hm⟩ := ih
          { cfgs := vm.cfgs.delete name0, visitors := vm.visitors.delete name0,
            trace := vm.trace ++ [VEvent.close name0 v0] }
        refine ⟨VEvent.close name0 v0 :: closes, by simp [ht], ?_, ?_⟩
        · intro e he
          rcases List.mem_cons.mp he with rfl | he
          · rfl
          · exact hc e he
        · intro name oldCfg v hmem hdel hget
          by_cases hne : name0 = name
          · subst hne
            rw [hv] at hget
            simp only [Option.some.injEq] at hget
            simp [hget]
          · rcases List.mem_cons.mp hmem with h | h
            · exact absurd (Prod.mk.inj h).1.symm hne
            · exact List.mem_cons_of_mem _
                (hm name oldCfg v h hdel (by simp [GoMap.get_delete, hne, hget]))
    · simp only [Reload.removeLoop, hd, if_false]
      obtain ⟨closes, ht, hc, hm⟩ := ih vm
      refine ⟨closes, ht, hc, ?_⟩
      intro name oldCfg v hmem hdel hget
      rcases List.mem_cons.mp hmem with h | h
      · obtain ⟨rfl, rfl⟩ := Prod.mk.inj h
        exact absurd hdel hd
      · exact hm name oldCfg v h hdel hget

/-- After the removal pass a name is in `vm.cfgs` (and in `vm.visitors`) exactly when it was
there before and no entry under that name was deleted. -/
theorem removeLoop_get {C : Type} (ops : ConfOps C) (cfgs : GoMap C)
    (l : List (String × C)) (vm : VisitorManager C) (name : String) :
    (Reload.removeLoop ops cfgs l vm).cfgs.get name =
      (if l.any (fun p => p.1 == name && Reload.del ops cfgs p.1 p.2) then none
       else vm.cfgs.get name) ∧
    (Reload.removeLoop ops cfgs l vm).visitors.get name =
      (if l.any (fun p => p.1 == name && Reload.del ops cfgs p.1 p.2) then none
       else vm.visitors.get name) := by
  induction l generalizing vm with
  | nil => simp [Reload.removeLoop]
  | cons p l ih =>
    obtain ⟨name0, old0⟩ := p
    by_cases hd : Reload.del ops cfgs name0 old0 = true
    · simp only [Reload.removeLoop, hd, if_true, List.any_cons, Bool.and_true]
      rw [(ih _).1, (ih _).2]
      by_cases hn : name0 = name
      · subst hn
        simp [GoMap.get_delete]
      · have hb : (name0 == name) = false := by simpa using hn
        simp only [GoMap.get_delete, hn, if_false, hb, Bool.false_or, and_self]
    · have hd' : Reload.del ops cfgs name0 old0 = false := by simpa using hd
      simp only [Reload.removeLoop, hd', Bool.false_eq_true, if_false, List.any_cons,
        Bool.and_false, Bool.false_or]
      exact ih vm

theorem startVisitor_cfgs {C : Type} (ops : ConfOps C) (Run : List (VEvent C) → C → Bool)
    (vm : VisitorManager C) (cfg : C) :
    (VisitorManager.startVisitor ops Run vm cfg).cfgs = vm.cfgs ∧
    (VisitorManager.startVisitor ops Run vm cfg).trace = vm.trace ++ [.run cfg (Run vm.trace cfg)]
    := by
  unfold VisitorManager.startVisitor
  cases Run vm.trace cfg <;> simp

/-- The add pass only starts visitors, and it starts one for every new name. -/
theorem addLoop_trace {C : Type} (ops : ConfOps C) (Run : List (VEvent C) → C → Bool)
    (l : List (String × C)) (vm : VisitorManager C) :
    ∃ starts, (Reload.addLoop ops Run l vm).trace = vm.trace ++ starts ∧
      (∀ e ∈ starts, e.isClose = false) ∧
      ∀ name cfg, vm.cfgs.get name = none → GoMap.get l name = some cfg →
        ∃ ok, VEvent.run cfg ok ∈ starts := by
  induction l generalizing vm with
  | nil => exact ⟨[], by simp [Reload.addLoop], by simp, by simp [GoMap.get_nil]⟩
  | cons p l ih =>
    obtain ⟨name0, cfg0⟩ := p
    cases hg : vm.cfgs.get name0 with
    | some c =>
      simp only [Reload.addLoop, hg]
      obtain ⟨starts, ht, hs, hm⟩ := ih vm
      refine ⟨starts, ht, hs, ?_⟩
      intro name cfg hnone hget
      rw [GoMap.get_cons] at hget
      by_cases hn : name0 = name
      · subst hn; rw [hg] at hnone; exact Option.noConfusion hnone
      · simp only [hn, if_false] at hget
        exact hm name cfg hnone hget
    | none =>
      simp only [Reload.addLoop, hg]
      obtain ⟨starts, ht, hs, hm⟩ := ih
        (VisitorManager.startVisitor ops Run { vm with cfgs := vm.cfgs.set name0 cfg0 } cfg0)
      have hsv := startVisitor_cfgs ops Run { vm with cfgs := vm.cfgs.set name0 cfg0 } cfg0
      rw [hsv.2] at ht
      rw [hsv.1] at hm
      refine ⟨VEvent.run cfg0 (Run vm.trace cfg0) :: starts, by simp [ht], ?_, ?_⟩
      · intro e he
        rcases List.mem_cons.mp he with rfl | he
        · rfl
        · exact hs e he
      · intro name cfg hnone hget
        rw [GoMap.get_cons] at hget
        by_cases hn : name0 = name
        · simp only [hn, if_true, Option.some.injEq] at hget
          exact ⟨Run vm.trace cfg0, by simp [hget]⟩
        · simp only [hn, if_false] at hget
          obtain ⟨ok, hok⟩ := hm name cfg (by simp [GoMap.get_set, hn, hnone]) hget
          exact ⟨ok, List.mem_cons_of_mem _ hok⟩

/-- After the add pass `vm.cfgs` has what it had, and under every other name of `cfgs` the
config `cfgs` has there. -/
theorem addLoop_get {C : Type} (ops : ConfOps C) (Run : List (VEvent C) → C → Bool)
    (l : List (String × C)) (vm : VisitorManager C) (name : String) :
    (Reload.addLoop ops Run l vm).cfgs.get name =
      match vm.cfgs.get name with
      | some c => some c
      | none => GoMap.get l name := by
  induction l generalizing vm with
  | nil => simp only [Reload.addLoop, GoMap.get_nil]; cases vm.cfgs.get name <;> rfl
  | cons p l ih =>
    obtain ⟨name0, cfg0⟩ := p
    cases hg : vm.cfgs.get name0 with
    | some c =>
      simp only [Reload.addLoop, hg]
      rw [ih, GoMap.get_cons]
      by_cases hn : name0 = name
      · subst hn; simp [hg]
      · simp [hn]
    | none =>
      simp only [Reload.addLoop, hg]
      rw [ih, (startVisitor_cfgs ops Run _ cfg0).1, GoMap.get_set, GoMap.get_cons]
      by_cases hn : name0 = name
      · subst hn; simp [hg]
      · simp [hn]

/-- C7: `Reload` runs its removal pass to the end before it starts any visitor: its events
are the closes of the removal pass followed by the starts of the add pass. For a name whose
old and new configs differ (`Compare` false), the old visitor (if there is one) is closed in
the removal pass and the name is gone from `vm.visitors` and `vm.cfgs` when that pass ends;
a visitor for the new config is started in the add pass; afterwards `vm.cfgs[name]` is the
new config. The key set of `vm.cfgs` afterwards is the key set of `cfgs`. -/
theorem Reload_remove_then_add {C : Type} (ops : ConfOps C)
    (Run : List (VEvent C) → C → Bool) (vm : VisitorManager C) (cfgs : GoMap C)
    (name : String) (oldCfg cfg : C)
    (hold : vm.cfgs.get name = some oldCfg) (hnew : cfgs.get name = some cfg)
    (hdiff : ops.Compare oldCfg cfg = false) :
    ∃ closes starts,
      (Reload.removeLoop ops cfgs vm.cfgs vm).trace = vm.trace ++ closes ∧
      (VisitorManager.Reload ops Run vm cfgs).trace = vm.trace ++ closes ++ starts ∧
      (∀ e ∈ closes, e.isClose = true) ∧ (∀ e ∈ starts, e.isClose = false) ∧
      (∀ v, vm.visitors.get name = some v → VEvent.close name v ∈ closes) ∧
      (Reload.removeLoop ops cfgs vm.cfgs vm).visitors.get name = none ∧
      (Reload.removeLoop ops cfgs vm.cfgs vm).cfgs.get name = none ∧
      (∃ ok, VEvent.run cfg ok ∈ starts) ∧
      (VisitorManager.Reload ops Run vm cfgs).cfgs.get name = some cfg ∧
      ∀ k, ((VisitorManager.Reload ops Run vm cfgs).cfgs.get k).isSome = (cfgs.get k).isSome := by
  obtain ⟨closes, hct, hcc, hcm⟩ := removeLoop_trace ops cfgs vm.cfgs vm
  obtain ⟨starts, hst, hss, hsm⟩ :=
    addLoop_trace ops Run cfgs (Reload.removeLoop ops cfgs vm.cfgs vm)
  have hmem : (name, oldCfg) ∈ vm.cfgs := GoMap.mem_of_get vm.cfgs name oldCfg hold
  have hdel : Reload.del ops cfgs name oldCfg = true := by simp [Reload.del, hnew, hdiff]
  have hany : vm.cfgs.any (fun p => p.1 == name && Reload.del ops cfgs p.1 p.2) = true :=
    List.any_eq_true.mpr ⟨(name, oldCfg), hmem, by simp [hdel]⟩
  have hrg := removeLoop_get ops cfgs vm.cfgs vm name
  rw [hany] at hrg
  simp only [if_true] at hrg
  refine ⟨closes, starts, hct, ?_, hcc, hss, ?_, hrg.2, hrg.1, hsm name cfg hrg.1 hnew, ?_, ?_⟩
  · unfold VisitorManager.Reload
    rw [hst, hct]
  · intro v hv
    exact hcm name oldCfg v hmem hdel hv
  · unfold VisitorManager.Reload
    rw [addLoop_get, hrg.1]
    exact hnew
  · intro k
    unfold VisitorManager.Reload
    rw [addLoop_get]
    cases hk : (Reload.removeLoop ops cfgs vm.cfgs vm).cfgs.get k with
    | none => rfl
    | some c =>
      have hkg := (removeLoop_get ops cfgs vm.cfgs vm k).1
      rw [hk] at hkg
      by_cases ha : vm.cfgs.any (fun p => p.1 == k && Reload.del ops cfgs p.1 p.2) = true
      · rw [ha] at hkg
        exact Option.noConfusion hkg
      · simp only [ha, if_false] at hkg
        have hmemk : (k, c) ∈ vm.cfgs := GoMap.mem_of_get vm.cfgs k c hkg.symm
        have hnd : Reload.del ops cfgs k c = false := by
          by_contra hcon
          exact ha (List.any_eq_true.mpr ⟨(k, c), hmemk, by simpa using hcon⟩)
        unfold Reload.del at hnd
        cases hck : cfgs.get k with
        | none => rw [hck] at hnd; exact Bool.noConfusion hnd
        | some c' => rfl

theorem Reload_remove_then_add_witness :
    ∃ closes starts,
      (Reload.removeLoop sampleOps sampleCfgs sampleVm.cfgs sampleVm).trace
        = sampleVm.trace ++ closes ∧
      (VisitorManager.Reload sampleOps (fun _ _ => true) sampleVm sampleCfgs).trace
        = sampleVm.trace ++ closes ++ starts ∧
      VEvent.close "b" ⟨"b", "srvB", 9001⟩ ∈ closes ∧
      (∃ ok, VEvent.run (⟨"b", "srvB", 9100⟩ : SampleConf) ok ∈ starts) ∧
      (VisitorManager.Reload sampleOps (fun _ _ => true) sampleVm sampleCfgs).cfgs.get "b"
        = some ⟨"b", "srvB", 9100⟩ :=
  match Reload_remove_then_add sampleOps (fun _ _ => true) sampleVm sampleCfgs "b"
      ⟨"b", "srvB", 9001⟩ ⟨"b", "srvB", 9100⟩ (by decide) (by decide) (by decide) with
  | ⟨closes, starts, h1, h2, _, _, h5, _, _, h8, h9, _⟩ =>
    ⟨closes, starts, h1, h2, h5 ⟨"b", "srvB", 9001⟩ (by decide), h8, h9⟩

/-! ### `HttpsProxy.Run` -/

theorem listenDomain_ok {σ : Type} (env : HttpsEnv σ) (name domain : String)
    (st : HttpsState σ) (h : (HttpsProxy.listenDomain env name domain st).err = none) :
    st.err = none ∧
    (HttpsProxy.listenDomain env name domain st).addrs
      = st.addrs ++ [env.CanonicalAddr domain env.VhostHttpsPort] ∧
    ∃ l, (HttpsProxy.listenDomain env name domain st).listeners = st.listeners ++ [l] := by
  unfold HttpsProxy.listenDomain at h ⊢
  cases hl : env.Listen st.mux domain with
  | error e => rw [hl] at h; simp at h
  | ok r =>
    obtain ⟨l, mux⟩ := r
    rw [hl] at h
    exact ⟨h, rfl, l.AddLogPrefix name, rfl⟩

theorem customDomainsLoop_ok {σ : Type} (env : HttpsEnv σ) (name : String)
    (domains : List String) (st : HttpsState σ)
    (h : (HttpsProxy.customDomainsLoop env name domains st).err = none) :
    st.err = none ∧
    (HttpsProxy.customDomainsLoop env name domains st).addrs
      = st.addrs ++ (domains.filter (fun d => d ≠ "")).map
          (fun d => env.CanonicalAddr d env.VhostHttpsPort) ∧
    ∃ ls, (HttpsProxy.customDomainsLoop env name domains st).listeners = st.listeners ++ ls ∧
      ls.length = (domains.filter (fun d => d ≠ "")).length := by
  induction domains generalizing st with
  | nil => exact ⟨h, by simp [HttpsProxy.customDomainsLoop], [], by
      simp [HttpsProxy.customDomainsLoop]⟩
  | cons d rest ih =>
    by_cases hd : d = ""
    · simp only [HttpsProxy.customDomainsLoop, hd, if_true] at h ⊢
      obtain ⟨h1, h2, ls, h3, h4⟩ := ih st h
      exact ⟨h1, by simpa using h2, ls, h3, by simpa using h4⟩
    · simp only [HttpsProxy.customDomainsLoop, hd, if_false] at h ⊢
      cases he : (HttpsProxy.listenDomain env name d st).err with
      | some e => rw [he] at h; simp only at h; rw [he] at h; exact Option.noConfusion h
      | none =>
        rw [he] at h
        simp only at h ⊢
        obtain ⟨h0, ha, l, hl⟩ := listenDomain_ok env name d st he
        obtain ⟨_, h2, ls, h3, h4⟩ := ih _ h
        refine ⟨h0, ?_, l :: ls, ?_, ?_⟩
        · rw [h2, ha]; simp [hd]
        · rw [h3, hl]; simp
        · simp [hd, h4]

/-- C8: when every `VhostHttpsMuxer.Listen` call succeeds (`Run` returns a nil error), the
advertised address is the comma-separated list of `util.CanonicalAddr(domain,
VhostHttpsPort)`, one entry per non-empty custom domain in configuration order followed by
one for `SubDomain + "." + SubDomainHost` when `SubDomain` is non-empty, and `Run` has
appended exactly one listener per entry to the proxy. -/
theorem HttpsProxy_Run_advertised {σ : Type} (env : HttpsEnv σ) (mux : σ) (pxy : HttpsProxy)
    (h : (HttpsProxy.Run env mux pxy).err = none) :
    (HttpsProxy.Run env mux pxy).remoteAddr =
      String.intercalate ","
        ((pxy.advertisedDomains env.SubDomainHost).map
          (fun d => env.CanonicalAddr d env.VhostHttpsPort)) ∧
    ∃ ls, (HttpsProxy.Run env mux pxy).st.listeners = pxy.listeners ++ ls ∧
      ls.length = (pxy.advertisedDomains env.SubDomainHost).length := by
  unfold HttpsProxy.Run at h ⊢
  simp only at h ⊢
  generalize hst0 : HttpsState.mk pxy.listeners [] none mux false = st0 at h ⊢
  have hl0 : st0.listeners = pxy.listeners := by rw [← hst0]
  have ha0 : st0.addrs = [] := by rw [← hst0]
  cases he1 : (HttpsProxy.customDomainsLoop env pxy.name pxy.CustomDomains st0).err with
  | some e => rw [he1] at h; simp at h
  | none =>
    rw [he1] at h
    simp only at h ⊢
    obtain ⟨_, h2, ls, h3, h4⟩ := customDomainsLoop_ok env pxy.name pxy.CustomDomains st0 he1
    rw [ha0, List.nil_append] at h2
    rw [hl0] at h3
    by_cases hs : pxy.SubDomain = ""
    · simp only [hs, ne_eq, not_true_eq_false, if_false] at h ⊢
      rw [he1]
      simp only [HttpsProxy.advertisedDomains, hs, ne_eq, not_true_eq_false, if_false,
        List.append_nil]
      exact ⟨by rw [h2], ls, h3, h4⟩
    · simp only [hs, ne_eq, not_false_eq_true, if_true] at h ⊢
      cases he2 : (HttpsProxy.listenDomain env pxy.name (pxy.SubDomain ++ "." ++ env.SubDomainHost)
          (HttpsProxy.customDomainsLoop env pxy.name pxy.CustomDomains st0)).err with
      | some e => rw [he2] at h; simp at h
      | none =>
        simp only
        obtain ⟨_, ha, l, hl⟩ := listenDomain_ok env pxy.name _ _ he2
        simp only [HttpsProxy.advertisedDomains, hs, ne_eq, not_false_eq_true, if_true]
        refine ⟨by rw [ha, h2]; simp, ls ++ [l], ?_, ?_⟩
        · rw [hl, h3, List.append_assoc]
        · simp [h4]

theorem HttpsProxy_Run_advertised_witness :
    (HttpsProxy.Run sampleHttpsEnv [] sampleHttpsProxy).remoteAddr =
      String.intercalate ","
        ((sampleHttpsProxy.advertisedDomains sampleHttpsEnv.SubDomainHost).map
          (fun d => sampleHttpsEnv.CanonicalAddr d sampleHttpsEnv.VhostHttpsPort)) ∧
    ∃ ls, (HttpsProxy.Run sampleHttpsEnv [] sampleHttpsProxy).st.listeners
        = sampleHttpsProxy.listeners ++ ls ∧
      ls.length = (sampleHttpsProxy.advertisedDomains sampleHttpsEnv.SubDomainHost).length :=
  HttpsProxy_Run_advertised sampleHttpsEnv [] sampleHttpsProxy (by rfl)

/-! ### `XtcpProxy.Run`: the request loop -/

/-- C9: while one `SidRequest` is handled, the non-blocking send on its `notifyCh` is
executed at most once, and it is executed if and only if a work conn was obtained, the
`NatHoleSid` was written to it without error, the one message read from it came without error
and is `NatHoleClientDetectOK`. The signal then reaches `notifyCh` whenever the channel can
take it without blocking (it is open and a receiver is waiting or its buffer has room: with
no receiver the value is put in the buffer), is lost otherwise, and never reaches it in any
other case. When a work conn was obtained and the write fails, the read fails or the message
is of another type, the work conn is closed, `notifyCh` is not signalled and is left as it
was. -/
theorem handleSidRequest_notify (sr : SidRequest) (a : SidAnswers) :
    (XtcpProxy.handleSidRequest sr a).events.count (XEvent.notify sr.Sid) ≤ 1 ∧
    (XEvent.notify sr.Sid ∈ (XtcpProxy.handleSidRequest sr a).events ↔
      ∃ w, a.workConn = some w ∧ a.writeOk = true ∧ a.read = .msg .NatHoleClientDetectOK) ∧
    (∀ sid, XEvent.notify sid ∈ (XtcpProxy.handleSidRequest sr a).events → sid = sr.Sid) ∧
    ((XtcpProxy.handleSidRequest sr a).delivered = true ↔
      (∃ w, a.workConn = some w ∧ a.writeOk = true ∧ a.read = .msg .NatHoleClientDetectOK) ∧
        sr.NotifyCh.closed = false ∧
        (a.receiverWaiting = true ∨ sr.NotifyCh.buf.length < sr.NotifyCh.cap)) ∧
    ((XtcpProxy.handleSidRequest sr a).NotifyCh =
      if (∃ w, a.workConn = some w ∧ a.writeOk = true ∧ a.read = .msg .NatHoleClientDetectOK) ∧
          sr.NotifyCh.closed = false ∧ a.receiverWaiting = false ∧
          sr.NotifyCh.buf.length < sr.NotifyCh.cap
      then { sr.NotifyCh with buf := sr.NotifyCh.buf ++ [()] }
      else sr.NotifyCh) ∧
    ((XtcpProxy.handleSidRequest sr a).panicked = true ↔
      (∃ w, a.workConn = some w ∧ a.writeOk = true ∧ a.read = .msg .NatHoleClientDetectOK) ∧
        sr.NotifyCh.closed = true) ∧
    (∀ w, a.workConn = some w →
      (a.writeOk = false ∨ a.read ≠ .msg .NatHoleClientDetectOK) →
      XEvent.closeWorkConn w.id ∈ (XtcpProxy.handleSidRequest sr a).events ∧
      XEvent.notify sr.Sid ∉ (XtcpProxy.handleSidRequest sr a).events ∧
      (XtcpProxy.handleSidRequest sr a).delivered = false ∧
      (XtcpProxy.handleSidRequest sr a).NotifyCh = sr.NotifyCh) := by
  obtain ⟨sid, ch⟩ := sr
  obtain ⟨workConn, writeOk, read, recv⟩ := a
  cases workConn with
  | none => simp [XtcpProxy.handleSidRequest]
  | some w =>
    cases writeOk with
    | false => simp [XtcpProxy.handleSidRequest]
    | true =>
      cases read with
      | error => simp [XtcpProxy.handleSidRequest, XtcpProxy.detectFn]
      | msg m =>
        cases m with
        | NatHoleClientDetectOK =>
          by_cases hc : ch.closed = true
          · simp [XtcpProxy.handleSidRequest, XtcpProxy.detectFn, hc]
          · have hc' : ch.closed = false := by simpa using hc
            cases recv with
            | true => simp [XtcpProxy.handleSidRequest, XtcpProxy.detectFn, hc']
            | false =>
              by_cases hroom : ch.buf.length < ch.cap
              · simp [XtcpProxy.handleSidRequest, XtcpProxy.detectFn, Chan.trySend, hc', hroom]
              · simp [XtcpProxy.handleSidRequest, XtcpProxy.detectFn, Chan.trySend, hc', hroom]
        | Ping => simp [XtcpProxy.handleSidRequest, XtcpProxy.detectFn]
        | UdpPacket p => simp [XtcpProxy.handleSidRequest, XtcpProxy.detectFn]
        | NatHoleSid s => simp [XtcpProxy.handleSidRequest, XtcpProxy.detectFn]
        | StartWorkConn n => simp [XtcpProxy.handleSidRequest, XtcpProxy.detectFn]

theorem handleSidRequest_notify_witness :
    XEvent.notify "sid-1" ∈ (XtcpProxy.handleSidRequest sampleSid.1 sampleSid.2).events ∧
    (XtcpProxy.handleSidRequest sampleSid.1 sampleSid.2).delivered = true ∧
    (XEvent.closeWorkConn 3 ∈
        (XtcpProxy.handleSidRequest sampleSid.1 { sampleSid.2 with read := .msg .Ping }).events ∧
      XEvent.notify "sid-1" ∉
        (XtcpProxy.handleSidRequest sampleSid.1 { sampleSid.2 with read := .msg .Ping }).events ∧
      (XtcpProxy.handleSidRequest sampleSid.1 { sampleSid.2 with read := .msg .Ping }).delivered
        = false ∧
      (XtcpProxy.handleSidRequest sampleSid.1 { sampleSid.2 with read := .msg .Ping }).NotifyCh
        = sampleSid.1.NotifyCh) :=
  ⟨(handleSidRequest_notify sampleSid.1 sampleSid.2).2.1.mpr
      ⟨{ id := 3, closed := false }, rfl, rfl, rfl⟩,
   (handleSidRequest_notify sampleSid.1 sampleSid.2).2.2.2.1.mpr
      ⟨⟨{ id := 3, closed := false }, rfl, rfl, rfl⟩, rfl, Or.inl rfl⟩,
   (handleSidRequest_notify sampleSid.1 { sampleSid.2 with read := .msg .Ping }).2.2.2.2.2.2
      { id := 3, closed := false } rfl (Or.inr (by decide))⟩

theorem forSelectAfter_handleSidRequest (sr : SidRequest) (a : SidAnswers) :
    forSelectAfter (XtcpProxy.handleSidRequest sr a).ctl = .looping := by
  unfold XtcpProxy.handleSidRequest
  cases a.workConn with
  | none => rfl
  | some w =>
    cases a.writeOk with
    | false => rfl
    | true => rfl

/-- An iteration of the loop with `closeCh` closed: whichever clause the `select` takes, the
`for` goes on, one iteration further, with `closeCh` still closed. -/
theorem iteration_closed (pick : Bool) (st : XtcpLoop) (hc : st.closeCh.closed = true)
    (hs : st.status = .looping) :
    (XtcpProxy.iteration pick st).closeCh.closed = true ∧
    (XtcpProxy.iteration pick st).status = .looping ∧
    (XtcpProxy.iteration pick st).iterations = st.iterations + 1 := by
  unfold XtcpProxy.iteration
  rw [hs, hc]
  cases hq : st.sidCh with
  | nil => exact ⟨hc, rfl, rfl⟩
  | cons r rest =>
    cases pick with
    | true => exact ⟨hc, rfl, rfl⟩
    | false => exact ⟨hc, forSelectAfter_handleSidRequest r.1 r.2, rfl⟩

theorem loop_closed (picks : List Bool) (st : XtcpLoop) (hc : st.closeCh.closed = true)
    (hs : st.status = .looping) :
    (XtcpProxy.loop picks st).status = .looping ∧
    (XtcpProxy.loop picks st).iterations = st.iterations + picks.length := by
  induction picks generalizing st with
  | nil => exact ⟨hs, rfl⟩
  | cons pick picks ih =>
    obtain ⟨h1, h2, h3⟩ := iteration_closed pick st hc hs
    obtain ⟨h4, h5⟩ := ih (XtcpProxy.iteration pick st) h1 h2
    refine ⟨h4, ?_⟩
    rw [XtcpProxy.loop, h5, h3, List.length_cons]
    omega

/-- C10 fails on the code: after `XtcpProxy.Close` has closed `closeCh`, the request loop does
not exit. The clause `case <-pxy.closeCh: break` only leaves the `select`; the `for` takes
iteration after iteration, as many as it is given time for, and stays in the looping state. -/
theorem loop_after_Close_never_exits (picks : List Bool) (st : XtcpLoop)
    (hs : st.status = .looping) :
    (XtcpProxy.loop picks (XtcpProxy.Close st)).status = .looping ∧
    (XtcpProxy.loop picks (XtcpProxy.Close st)).status ≠ .exited ∧
    (XtcpProxy.loop picks (XtcpProxy.Close st)).iterations = st.iterations + picks.length := by
  obtain ⟨h1, h2⟩ := loop_closed picks (XtcpProxy.Close st) rfl hs
  refine ⟨h1, ?_, h2⟩
  rw [h1]
  decide

theorem loop_after_Close_never_exits_witness :
    (XtcpProxy.loop [true, false, true]
        (XtcpProxy.Close { sampleLoop with sidCh := [sampleSid] })).status = .looping ∧
    (XtcpProxy.loop [true, false, true]
        (XtcpProxy.Close { sampleLoop with sidCh := [sampleSid] })).iterations = 3 ∧
    (XtcpProxy.loop [true, false, true]
        (XtcpProxy.Close { sampleLoop with sidCh := [sampleSid] })).handled = ["sid-1"] ∧
    XEvent.notify "sid-1" ∈ (XtcpProxy.loop [true, false, true]
        (XtcpProxy.Close { sampleLoop with sidCh := [sampleSid] })).events :=
  have h := loop_after_Close_never_exits [true, false, true]
    { sampleLoop with sidCh := [sampleSid] } rfl
  ⟨h.1, h.2.2, by decide, by decide⟩

/-! ### `UdpProxy.Close`: the order of the first call -/

/-- C11: the first `Close` on a running proxy does, in this order and nothing else: set
`isClosed`, close the listeners (`BaseProxy.Close`), close `workConn` if one is installed,
close the UDP socket, close `checkCloseCh`, close `readCh`, close `sendCh`, release the UDP
port; it does not panic and leaves `isClosed` set. -/
theorem Close_first_call_order (pxy : UdpProxy) (h : pxy.isRunning = true) :
    ∃ u, pxy.udpConn = some u ∧
      pxy.Close.events =
        [Event.setIsClosed] ++ pxy.listeners.map Event.closeListener
          ++ (match pxy.workConn with
              | some w => [Event.closeWorkConn w.id]
              | none => [])
          ++ [Event.closeUdpConn u.id, Event.closeCheckCloseCh, Event.closeReadCh,
              Event.closeSendCh, Event.release pxy.realPort] ∧
      pxy.Close.panic = none ∧ pxy.Close.pxy.isClosed = true := by
  obtain ⟨u, cc, rc, sc, hu, h1⟩ := Close_of_isRunning pxy h
  refine ⟨u, hu, ?_, by rw [h1], by rw [h1]⟩
  rw [h1]
  cases pxy.workConn <;> simp [BaseProxy.Close]

theorem Close_first_call_order_witness :
    ({ runningPxy with listeners := [11, 12] } : UdpProxy).Close.events =
      [Event.setIsClosed, Event.closeListener 11, Event.closeListener 12,
       Event.closeWorkConn 7, Event.closeUdpConn 1, Event.closeCheckCloseCh,
       Event.closeReadCh, Event.closeSendCh, Event.release 6000] :=
  match Close_first_call_order { runningPxy with listeners := [11, 12] } (by decide) with
  | ⟨u, hu, hev, _, _⟩ => by
    have hu1 : u = { id := 1, closed := false } := by
      have : some u = some { id := 1, closed := false } := hu.symm.trans (by decide)
      exact Option.some.inj this
    rw [hev, hu1]
    decide

/-! ### The work-conn reader on a sequence of messages -/

/-- The reader on a `UdpPacket`, with `readCh` open and not full. -/
theorem workConnReaderFn_packet (name : String) (rs : ReaderState) (p : UdpPacket)
    (rest : List ConnRead) (hopen : rs.readCh.closed = false)
    (hlt : rs.readCh.buf.length < rs.readCh.cap) :
    workConnReaderFn name (.msg (.UdpPacket p) :: rest) rs =
      workConnReaderFn name rest
        { rs with readCh := { rs.readCh with buf := rs.readCh.buf ++ [p] },
                  events := rs.events ++ [Event.addTrafficOut name p.Content.utf8ByteSize] } := by
  simp only [workConnReaderFn, Chan.send, hopen, Bool.false_eq_true, if_false, hlt, if_true]

/-- C12: on messages `msgs` read without error and followed by a read error, with the proxy
not closed (`readCh` and `checkCloseCh` open) and `readCh` not full at any enqueue, the reader
appends to `readCh` exactly the `UdpPacket` messages of `msgs`, in arrival order; emits exactly
one `AddTrafficOut` per enqueued packet, in that order, and nothing for a `Ping` or any other
message; then, on the read error, closes the conn, signals `checkCloseCh` once and returns. -/
theorem workConnReaderFn_sequence (name : String) (msgs : List Message) (rs : ReaderState)
    (hopen : rs.readCh.closed = false)
    (hroom : rs.readCh.buf.length + (udpPacketsOf msgs).length ≤ rs.readCh.cap)
    (hcc : rs.checkCloseCh.closed = false) :
    (workConnReaderFn name (msgs.map ConnRead.msg ++ [ConnRead.error]) rs).readCh.buf
      = rs.readCh.buf ++ udpPacketsOf msgs ∧
    (workConnReaderFn name (msgs.map ConnRead.msg ++ [ConnRead.error]) rs).events
      = rs.events
        ++ (udpPacketsOf msgs).map (fun m => Event.addTrafficOut name m.Content.utf8ByteSize)
        ++ [Event.closeWorkConn rs.conn.id, Event.signalCheckCloseCh] ∧
    (workConnReaderFn name (msgs.map ConnRead.msg ++ [ConnRead.error]) rs).conn.closed = true ∧
    (workConnReaderFn name (msgs.map ConnRead.msg ++ [ConnRead.error]) rs).status
      = GoStatus.returned ∧
    (workConnReaderFn name (msgs.map ConnRead.msg ++ [ConnRead.error]) rs).parked
      = rs.parked := by
  induction msgs generalizing rs with
  | nil => simp [workConnReaderFn, udpPacketsOf, hcc]
  | cons m rest ih =>
    cases m with
    | UdpPacket p =>
      simp only [udpPacketsOf, List.length_cons] at hroom
      have hlt : rs.readCh.buf.length < rs.readCh.cap := by omega
      rw [List.map_cons, List.cons_append, workConnReaderFn_packet name rs p _ hopen hlt]
      obtain ⟨h1, h2, h3, h4, h5⟩ := ih
        { rs with readCh := { rs.readCh with buf := rs.readCh.buf ++ [p] },
                  events := rs.events ++ [Event.addTrafficOut name p.Content.utf8ByteSize] }
        hopen (by simp only [List.length_append, List.length_singleton]; omega) hcc
      refine ⟨?_, ?_, h3, h4, h5⟩
      · rw [h1]; simp [udpPacketsOf]
      · rw [h2]; simp [udpPacketsOf]
    | Ping =>
      simp only [List.map_cons, List.cons_append, workConnReaderFn, udpPacketsOf] at hroom ⊢
      exact ih rs hopen hroom hcc
    | NatHoleSid sid =>
      simp only [List.map_cons, List.cons_append, workConnReaderFn, udpPacketsOf] at hroom ⊢
      exact ih rs hopen hroom hcc
    | NatHoleClientDetectOK =>
      simp only [List.map_cons, List.cons_append, workConnReaderFn, udpPacketsOf] at hroom ⊢
      exact ih rs hopen hroom hcc
    | StartWorkConn n =>
      simp only [List.map_cons, List.cons_append, workConnReaderFn, udpPacketsOf] at hroom ⊢
      exact ih rs hopen hroom hcc

theorem workConnReaderFn_sequence_witness :
    (workConnReaderFn "dns" (sampleMsgs.map ConnRead.msg ++ [ConnRead.error])
        freshReaderState).readCh.buf = [samplePacket, samplePacket2] ∧
    (workConnReaderFn "dns" (sampleMsgs.map ConnRead.msg ++ [ConnRead.error])
        freshReaderState).events
      = [Event.addTrafficOut "dns" samplePacket.Content.utf8ByteSize,
         Event.addTrafficOut "dns" samplePacket2.Content.utf8ByteSize,
         Event.closeWorkConn 7, Event.signalCheckCloseCh] ∧
    (workConnReaderFn "dns" (sampleMsgs.map ConnRead.msg ++ [ConnRead.error])
        freshReaderState).status = GoStatus.returned :=
  have h := workConnReaderFn_sequence "dns" sampleMsgs freshReaderState rfl (by decide) rfl
  ⟨h.1, h.2.1, h.2.2.2.1⟩

/-! ### The supervisor of the work connection -/

theorem connChain_cons (prev : Option Nat) (c : Nat) (rest : List Nat) :
    connChain prev (c :: rest) =
      (match prev with
        | some p => [SupEvent.closeWorkConn p]
        | none => []) ++ [SupEvent.install c] ++ connChain (some c) rest := rfl

theorem connChain_append (prev : Option Nat) (l : List Nat) (c : Nat) :
    connChain prev (l ++ [c]) =
      connChain prev l ++
        (match (match l.getLast? with
                | some x => some x
                | none => prev) with
          | some p => [SupEvent.closeWorkConn p]
          | none => []) ++ [SupEvent.install c] := by
  induction l generalizing prev with
  | nil => simp [connChain]
  | cons a l ih =>
    rw [List.cons_append, connChain_cons, connChain_cons, ih (some a)]
    cases l with
    | nil => simp [connChain]
    | cons b l =>
      have hx : (b :: l).getLast? = some ((b :: l).getLast (by simp)) :=
        List.getLast?_eq_getLast _ _
      simp only [List.getLast?_cons_cons, hx, List.append_assoc]

theorem mem_connChain_of_mem_dropLast (prev : Option Nat) (l : List Nat) (id : Nat)
    (h : id ∈ l.dropLast) : SupEvent.closeWorkConn id ∈ connChain prev l := by
  induction l generalizing prev with
  | nil => simp at h
  | cons a l ih =>
    cases l with
    | nil => simp at h
    | cons b l =>
      rw [List.dropLast_cons₂] at h
      rcases List.mem_cons.mp h with rfl | h
      · simp [connChain]
      · have := ih (some a) h
        rw [connChain_cons]
        exact List.mem_append_right _ this

theorem Supervisor.inv_init : Supervisor.init.Inv := by
  simp [Supervisor.Inv, Supervisor.init, connChain, SupEvent.isConn]

theorem Supervisor.inv_iteration (inp : SupInput) (st : Supervisor) (h : st.Inv) :
    (Supervisor.iteration inp st).Inv := by
  obtain ⟨h1, h2⟩ := h
  obtain ⟨pool, recv⟩ := inp
  cases pool with
  | error =>
    cases recv <;>
      simp [Supervisor.Inv, Supervisor.iteration, List.filter_append, SupEvent.isConn, h1, h2]
  | conn c =>
    have hchain := connChain_append none st.installed c.id
    rw [← h2] at hchain
    cases hw : st.workConn with
    | none =>
      rw [hw] at hchain
      cases recv <;>
        simp [Supervisor.Inv, Supervisor.iteration, List.filter_append, SupEvent.isConn, h1,
          hw, hchain, List.filter_cons]
    | some old =>
      rw [hw] at hchain
      cases recv <;>
        simp [Supervisor.Inv, Supervisor.iteration, List.filter_append, SupEvent.isConn, h1,
          hw, hchain, List.filter_cons]

theorem Supervisor.inv_loop (inputs : List SupInput) (st : Supervisor) (h : st.Inv) :
    (Supervisor.loop inputs st).Inv := by
  induction inputs generalizing st with
  | nil => exact h
  | cons inp rest ih =>
    unfold Supervisor.loop
    cases hs : st.status with
    | looping => exact ih _ (Supervisor.inv_iteration inp st h)
    | parked => exact h
    | returned => exact h

/-- C13: after any number of iterations of the supervisor, its closes and installs of work
conns are, in order: install the first, then for every later one close the work conn installed
before it and install the new one. So `pxy.workConn` is the work conn installed last, and
every work conn installed before it has been closed: at most one is open at a time. -/
theorem supervisor_single_workConn (inputs : List SupInput) :
    (Supervisor.loop inputs Supervisor.init).events.filter SupEvent.isConn
      = connChain none (Supervisor.loop inputs Supervisor.init).installed ∧
    (Supervisor.loop inputs Supervisor.init).workConn.map (fun c => c.id)
      = (Supervisor.loop inputs Supervisor.init).installed.getLast? ∧
    ∀ id ∈ (Supervisor.loop inputs Supervisor.init).installed.dropLast,
      SupEvent.closeWorkConn id ∈ (Supervisor.loop inputs Supervisor.init).events := by
  obtain ⟨h1, h2⟩ := Supervisor.inv_loop inputs Supervisor.init Supervisor.inv_init
  refine ⟨h1, h2, ?_⟩
  intro id hid
  have hmem := mem_connChain_of_mem_dropLast none _ id hid
  rw [← h1] at hmem
  exact (List.mem_filter.mp hmem).1

theorem supervisor_single_workConn_witness :
    (Supervisor.loop sampleSupInputs Supervisor.init).installed = [1, 2, 3] ∧
    (Supervisor.loop sampleSupInputs Supervisor.init).events.filter SupEvent.isConn
      = [SupEvent.install 1, SupEvent.closeWorkConn 1, SupEvent.install 2,
         SupEvent.closeWorkConn 2, SupEvent.install 3] ∧
    (Supervisor.loop sampleSupInputs Supervisor.init).workConn.map (fun c => c.id) = some 3 ∧
    SupEvent.closeWorkConn 2 ∈ (Supervisor.loop sampleSupInputs Supervisor.init).events :=
  have h := supervisor_single_workConn sampleSupInputs
  ⟨by decide, h.1.trans (by decide), h.2.1.trans (by decide), h.2.2 2 (by decide)⟩

/-! ### `HealthCheckMonitor.checkWorker` -/

/-- A check that finds its context done ends the worker at once, whatever its outcome:
`failedTimes` and `statusOK` stay as they were, no callback is invoked, and no later check is
made. -/
theorem checkWorker_ctxDone (failed : Bool) (rest : List CheckResult) (w : CheckWorker) :
    HealthCheckMonitor.checkWorker ({ failed := failed, ctxDone := true } :: rest) w
      = { w with status := .returned } := by
  simp [HealthCheckMonitor.checkWorker]

/-- C14 fails on the code: a failed check that outlasts its deadline finds `ctx.Done()` closed
(health.go 103-106, where the comment says the test is for a closed monitor) and the worker
returns before `failedTimes++`. With `maxFailedTimes` 2 and both callbacks, after a success and
a counted failure, the failure that hits its deadline is the second failed check with
`statusOK` true: `failedTimes` stays 1, `statusFailedFn` is not invoked, the worker has
returned and the check after it is never made. -/
theorem checkWorker_deadline_failure_not_counted :
    (HealthCheckMonitor.checkWorker
        [{ failed := false, ctxDone := false }, { failed := true, ctxDone := false },
         { failed := true, ctxDone := true }, { failed := true, ctxDone := false }]
        { monitor := sampleMonitor, calls := [], status := .running }).monitor.failedTimes = 1 ∧
    (HealthCheckMonitor.checkWorker
        [{ failed := false, ctxDone := false }, { failed := true, ctxDone := false },
         { failed := true, ctxDone := true }, { failed := true, ctxDone := false }]
        { monitor := sampleMonitor, calls := [], status := .running }).monitor.statusOK = true ∧
    (HealthCheckMonitor.checkWorker
        [{ failed := false, ctxDone := false }, { failed := true, ctxDone := false },
         { failed := true, ctxDone := true }, { failed := true, ctxDone := false }]
        { monitor := sampleMonitor, calls := [], status := .running }).calls
      = [some StatusFn.statusNormalFn, none] ∧
    (HealthCheckMonitor.checkWorker
        [{ failed := false, ctxDone := false }, { failed := true, ctxDone := false },
         { failed := true, ctxDone := true }, { failed := true, ctxDone := false }]
        { monitor := sampleMonitor, calls := [], status := .running }).status
      = GoStatus.returned ∧
    sampleMonitor.maxFailedTimes = 2 := by
  decide

/-! ### The traffic the UDP proxy reports -/

theorem encChar_utf8Size (i : Nat) (h : i < 64) : (encChar i).utf8Size = 1 := by
  interval_cases i <;> rfl

theorem padChar_utf8Size : padChar.utf8Size = 1 := by rfl

theorem b64Encode_length (buf : List Byte) :
    (b64Encode buf).length = 4 * ((buf.length + 2) / 3) := by
  induction buf using b64Encode.induct with
  | case1 => rfl
  | case2 a => simp [b64Encode]
  | case3 a b => simp [b64Encode]
  | case4 a b c rest ih =>
    simp only [b64Encode, List.length_cons, ih]
    omega

theorem b64Encode_utf8Len (buf : List Byte) :
    String.utf8Len (b64Encode buf) = (b64Encode buf).length := by
  induction buf using b64Encode.induct with
  | case1 => rfl
  | case2 a =>
    simp [b64Encode, encChar_utf8Size _ (Nat.mod_lt _ (by decide : 0 < 64)), padChar_utf8Size]
  | case3 a b =>
    simp [b64Encode, encChar_utf8Size _ (Nat.mod_lt _ (by decide : 0 < 64)), padChar_utf8Size]
  | case4 a b c rest ih =>
    simp only [b64Encode, String.utf8Len_cons, List.length_cons, ih,
      encChar_utf8Size _ (Nat.mod_lt _ (by decide : 0 < 64))]

/-- The length in bytes of the `Content` of a packet made by `NewUdpPacket`. -/
theorem content_utf8ByteSize (buf : List Byte) (laddr raddr : Option UDPAddr) :
    (NewUdpPacket buf laddr raddr).Content.utf8ByteSize = 4 * ((buf.length + 2) / 3) := by
  show String.utf8Len (b64Encode buf) = _
  rw [b64Encode_utf8Len, b64Encode_length]

/-- C15: for a payload of `n` bytes wrapped by `NewUdpPacket`, `len(Content)` is
`4 * ceil(n / 3)`, and that, not `n`, is the `TrafficBytes` of the `AddTrafficOut` event of
the reader and of the `AddTrafficIn` event of the sender; it is more than `n` for every
non-empty payload, 28 for a payload of 20 bytes and 0 for the empty one. -/
theorem trafficBytes_is_base64_length (name : String) (buf : List Byte)
    (laddr raddr : Option UDPAddr) (rs : ReaderState) (ss : SenderState)
    (q : List UdpPacket)
    (hro : rs.readCh.closed = false) (hrr : rs.readCh.buf.length < rs.readCh.cap)
    (hs : ss.sendCh.buf = NewUdpPacket buf laddr raddr :: q) :
    (NewUdpPacket buf laddr raddr).Content.utf8ByteSize = 4 * ((buf.length + 2) / 3) ∧
    (workConnReaderFn name [.msg (.UdpPacket (NewUdpPacket buf laddr raddr))] rs).events
      = rs.events ++ [Event.addTrafficOut name ((4 * ((buf.length + 2) / 3) : Nat) : Int)] ∧
    (workConnSenderFn name [.recv true] ss).events
      = ss.events ++ [Event.addTrafficIn name ((4 * ((buf.length + 2) / 3) : Nat) : Int)] ∧
    (0 < buf.length → buf.length < 4 * ((buf.length + 2) / 3)) ∧
    (NewUdpPacket (List.replicate 20 0) laddr raddr).Content.utf8ByteSize = 28 ∧
    (NewUdpPacket [] laddr raddr).Content.utf8ByteSize = 0 := by
  refine ⟨content_utf8ByteSize buf laddr raddr, ?_, ?_, by omega, ?_, ?_⟩
  · rw [workConnReaderFn_packet name rs _ _ hro hrr, content_utf8ByteSize]
    rfl
  · simp only [workConnSenderFn, hs, if_true, content_utf8ByteSize]
  · rw [content_utf8ByteSize, List.length_replicate]
  · rw [content_utf8ByteSize]; rfl

theorem trafficBytes_is_base64_length_witness :
    (workConnReaderFn "dns"
        [.msg (.UdpPacket (NewUdpPacket (List.replicate 20 0) none (some sampleAddr)))]
        freshReaderState).events
      = [Event.addTrafficOut "dns" 28] ∧
    (workConnSenderFn "dns" [.recv true] sampleSenderState).events
      = [Event.addTrafficIn "dns" 28] ∧
    (20 : Nat) < 28 :=
  have h := trafficBytes_is_base64_length "dns" (List.replicate 20 0) none (some sampleAddr)
    freshReaderState sampleSenderState [] rfl (by decide) rfl
  ⟨h.2.1, h.2.2.1, h.2.2.2.1 (by decide)⟩

end Frp
